import Mathlib

/-!
Verification of the BIND 9 configuration address-list module
(`src/lib/dns/config/confip.c`) and of the wire-corruption logic of the
rdata diagnostic tool (`src/bin/tests/rdata_test.c`).

The C code is shallowly embedded: machine integers become `Nat` with
explicit reduction modulo `2 ^ 32` where 32-bit overflow matters, out
parameters become returned `Option` values (`none` models "the out slot
was never written"), `isc_result_t` becomes an enumeration, and the
`isc_mem_t` allocator becomes an explicit state (`Mem`) threaded through
every function that allocates.  The allocator hands out consecutive
fresh cell identities (modelling distinct heap addresses), can be
scripted to fail (modelling `ISC_R_NOMEMORY`), and records the
identities released by `isc_mem_put` (modelling frees, so that dangling
references are observable).
-/

namespace BindConfip

/-- The `isc_result_t` values that appear in `confip.c`. -/
inductive IscResult where
  | success
  | failure
  | nomemory
deriving DecidableEq, Repr

/-- An `isc_sockaddr_t` as the flat-array code sees it: a tagged family
plus the address payload.  `zeroed` is the struct produced by
`memset(..., 0x0, ...)` (its `sa_family` is 0, so it is distinct, byte
for byte, from any populated IPv4/IPv6 address).  For IPv4 the stored
`sin_addr.s_addr` is the 32-bit value in network byte order; for IPv6
the 16 bytes of `sin6_addr`.  `memcmp` equality of two such structs is
modelled by decidable equality of this type. -/
inductive Sockaddr where
  | zeroed
  | v4 (s_addr : Nat)
  | v6 (bytes : List Nat)
  | other (family : Nat)
deriving DecidableEq, Repr

/-- Source `isc_sockaddr_equal` compares family, address and port; inside this
module it is only ever applied to addresses built by the same code
paths, where it coincides with byte equality, so it is modelled by the
same decidable equality as `memcmp`. -/
def isc_sockaddr_equal (a b : Sockaddr) : Bool := a == b

/-- The allocator state standing in for an `isc_mem_t`.  `next` is the
next fresh cell identity (a heap address, abstractly); `fail` scripts
the outcome of the upcoming allocations (`false` = this `isc_mem_get`
returns `NULL`; an exhausted script means every later allocation
succeeds); `freed` records the cell identities handed back to
`isc_mem_put`, newest first. -/
structure Mem where
  next : Nat
  fail : List Bool
  freed : List Nat
deriving DecidableEq, Repr

/-- Source `isc_mem_get`: returns a fresh cell identity, or `none` when the
failure script says this allocation yields `NULL`. -/
def isc_mem_get (m : Mem) : Option Nat × Mem :=
  match m.fail with
  | [] => (some m.next, { m with next := m.next + 1 })
  | b :: rest =>
      if b then
        (some m.next, { next := m.next + 1, fail := rest, freed := m.freed })
      else
        (none, { m with fail := rest })

/-- Source `isc_mem_put`: releases a cell identity. -/
def isc_mem_put (m : Mem) (cell : Nat) : Mem :=
  { m with freed := cell :: m.freed }

/-- Source `isc_mem_strdup`: allocates a copy of a string; on allocation
failure it returns `NULL` (`none`).  String cells are not given
identities because no claim concerns their liveness. -/
def isc_mem_strdup (m : Mem) (s : String) : Option String × Mem :=
  match m.fail with
  | [] => (some s, m)
  | b :: rest => (if b then some s else none, { m with fail := rest })

/-! ## IP-match elements and lists (`dns_c_ipmatchelement_t`, `dns_c_ipmatchlist_t`)

An element is a heap cell holding a type tag, a flags word (bit 0 is
`DNS_C_IPMATCH_NEGATE`) and a union; the union's variants are folded
into the tagged value `IpMatchVal` (the tag of a live cell always
matches the populated variant, which is exactly what the C code
maintains).  A list is a heap cell holding a reference count and the
intrusive `ISC_LIST` of its elements, modelled as the sequence of
element cells the links reach.  Both kinds of cell carry the identity
(`eid`/`lid`) the allocator gave them, so that freshness, sharing and
dangling references can be stated.  Out pointers that can be left
unwritten are `Option`s. -/

mutual
inductive IpMatchVal where
  | none
  | localhost
  | localnets
  | pattern (address : Sockaddr) (mask : Nat)
  | indirect (inner : Option IpMatchList) (refname : Option String)
  | key (k : Option String)
  | acl (a : Option String)
inductive IpMatchElement where
  | mk (eid : Nat) (flags : Nat) (val : IpMatchVal)
inductive IpMatchList where
  | mk (lid : Nat) (refcount : Nat) (elements : List IpMatchElement)
end

/-- The element's allocator identity (its address). -/
def IpMatchElement.eid : IpMatchElement → Nat
  | .mk i _ _ => i

/-- The element's flags word. -/
def IpMatchElement.flags : IpMatchElement → Nat
  | .mk _ f _ => f

/-- The element's tag-plus-union value. -/
def IpMatchElement.val : IpMatchElement → IpMatchVal
  | .mk _ _ v => v

/-- The list's allocator identity (its address). -/
def IpMatchList.lid : IpMatchList → Nat
  | .mk i _ _ => i

/-- The list's reference count. -/
def IpMatchList.refcount : IpMatchList → Nat
  | .mk _ r _ => r

/-- The list's elements, head first. -/
def IpMatchList.elements : IpMatchList → List IpMatchElement
  | .mk _ _ es => es

/-- The `dns_c_ipmatch_t` type tag of a value. -/
inductive IpMatchType where
  | none
  | localhost
  | localnets
  | pattern
  | indirect
  | key
  | acl
deriving DecidableEq, Repr

/-- The tag the C code stores in `elem->type` for each populated
variant. -/
def IpMatchVal.ctype : IpMatchVal → IpMatchType
  | .none => .none
  | .localhost => .localhost
  | .localnets => .localnets
  | .pattern _ _ => .pattern
  | .indirect _ _ => .indirect
  | .key _ => .key
  | .acl _ => .acl

/-- Source `DNS_C_IPMATCH_NEGATE` (confip.c:31). -/
def DNS_C_IPMATCH_NEGATE : Nat := 1

/-- Source `dns_c_ipmatchelement_new` (confip.c:37-64): allocates a cell, sets
the tag to `dns_c_ipmatch_none`, clears the flags and zeroes the
union. -/
def dns_c_ipmatchelement_new (m : Mem) : (IscResult × Option IpMatchElement) × Mem :=
  match isc_mem_get m with
  | (Option.none, m1) => ((.nomemory, Option.none), m1)
  | (some i, m1) => ((.success, some (.mk i 0 IpMatchVal.none)), m1)

/-- Source `dns_c_ipmatchelement_isneg` (confip.c:67-78). -/
def dns_c_ipmatchelement_isneg (e : IpMatchElement) : Bool :=
  e.flags &&& DNS_C_IPMATCH_NEGATE == DNS_C_IPMATCH_NEGATE

/-- Source `dns_c_ipmatch_negate` (confip.c:423-438): toggles the negate bit
(`&= ~DNS_C_IPMATCH_NEGATE` on a 32-bit flags word is `&&& 0xfffffffe`). -/
def dns_c_ipmatch_negate (e : IpMatchElement) : IscResult × IpMatchElement :=
  if e.flags &&& DNS_C_IPMATCH_NEGATE == DNS_C_IPMATCH_NEGATE then
    (.success, .mk e.eid (e.flags &&& 0xfffffffe) e.val)
  else
    (.success, .mk e.eid (e.flags ||| DNS_C_IPMATCH_NEGATE) e.val)

/-- Source `dns_c_ipmatchlist_new` (confip.c:441-466): allocates the list cell
with reference count 1 and an empty element list. -/
def dns_c_ipmatchlist_new (m : Mem) : (IscResult × Option IpMatchList) × Mem :=
  match isc_mem_get m with
  | (Option.none, m1) => ((.nomemory, Option.none), m1)
  | (some i, m1) => ((.success, some (.mk i 1 [])), m1)

/-- Source `dns_c_ipmatchlist_equal` (confip.c:587-611), transcribed with its
actual control flow: after `if (l1 == NULL && l2 == NULL) return TRUE;`
the source tests `if (l1 != NULL || l2 != NULL) return FALSE;` — which
is true for every remaining case, so the element-comparison loop at
lines 599-610 is unreachable and the function returns false whenever at
least one argument is non-NULL.  The final dead `return (ISC_TRUE)` is
kept as the value of the impossible third branch. -/
def dns_c_ipmatchlist_equal (l1 l2 : Option IpMatchList) : Bool :=
  if l1.isNone && l2.isNone then true
  else if l1.isSome || l2.isSome then false
  else true

/-- Source `dns_c_ipmatchelement_equal` (confip.c:198-235): false when tags or
flags differ; then per-variant — pattern compares mask then address,
indirect compares the inner lists with `dns_c_ipmatchlist_equal`,
key/acl compare their strings (`strcmp` on the stored C strings, which
are non-NULL for valid elements), and the remaining tags compare equal
by tag alone. -/
def dns_c_ipmatchelement_equal (e1 e2 : IpMatchElement) : Bool :=
  if e1.val.ctype ≠ e2.val.ctype ∨ e1.flags ≠ e2.flags then false
  else
    match e1.val, e2.val with
    | .pattern a1 m1, .pattern a2 m2 =>
        if m1 ≠ m2 then false else isc_sockaddr_equal a1 a2
    | .indirect i1 _, .indirect i2 _ => dns_c_ipmatchlist_equal i1 i2
    | .key k1, .key k2 => k1 == k2
    | .acl a1, .acl a2 => a1 == a2
    | _, _ => true

mutual
/-- Source `dns_c_ipmatchelement_delete` (confip.c:81-134): for the
`localhost`/`localnets`/`pattern` tags there is nothing extra to
release; an `indirect` element detaches its inner list (the refname
string, when present, is also released — string cells carry no
identities here); `key`/`acl` free their strings; the `none` tag logs a
critical diagnostic and returns `ISC_R_FAILURE` without freeing
anything.  Otherwise the element cell itself is released and the
caller's pointer is cleared. -/
def dns_c_ipmatchelement_delete (m : Mem) (e : IpMatchElement) : IscResult × Mem :=
  match e with
  | .mk _eid _ IpMatchVal.none => (.failure, m)
  | .mk eid _ (.indirect (some inner) _) =>
      let (_, m1) := dns_c_ipmatchlist_detach m inner
      (.success, isc_mem_put m1 eid)
  | .mk eid _ (.indirect Option.none _) =>
      -- INSIST(elem->u.indirect.list != NULL): unreachable for a live
      -- element; the cell is still released, as in the source after the
      -- (compiled-out) insist.
      (.success, isc_mem_put m eid)
  | .mk eid _ _ => (.success, isc_mem_put m eid)

/-- Source `dns_c_ipmatchlist_detach` (confip.c:469-506): decrement the
reference count; when it reaches zero, delete every element (the
per-element result is ignored) and release the list cell. -/
def dns_c_ipmatchlist_detach (m : Mem) (l : IpMatchList) : IscResult × Mem :=
  match l with
  | .mk lid rc es =>
      if rc - 1 > 0 then (.success, m)
      else
        let m1 := deleteElems m es
        (.success, isc_mem_put m1 lid)

/-- The element-deletion loop of `dns_c_ipmatchlist_detach`
(confip.c:495-501). -/
def deleteElems (m : Mem) (es : List IpMatchElement) : Mem :=
  match es with
  | [] => m
  | e :: rest =>
      let (_, m1) := dns_c_ipmatchelement_delete m e
      deleteElems m1 rest
end

/-- The deletion loop of `dns_c_ipmatchlist_empty` (confip.c:535-543):
delete elements in order, stopping at the first non-success result. -/
def emptyLoop (m : Mem) (es : List IpMatchElement) : IscResult × Mem :=
  match es with
  | [] => (.success, m)
  | e :: rest =>
      match dns_c_ipmatchelement_delete m e with
      | (.success, m1) => emptyLoop m1 rest
      | (r, m1) => (r, m1)

/-- Source `dns_c_ipmatchlist_empty` (confip.c:525-546): walks the element
chain deleting each element, stopping at the first failure.  The chain
itself is never touched: the loop performs no `ISC_LIST_UNLINK` and the
list's head/tail links are left exactly as they were, so the returned
list still holds its (now freed) element cells. -/
def dns_c_ipmatchlist_empty (m : Mem) (l : IpMatchList) :
    (IscResult × IpMatchList) × Mem :=
  let r := emptyLoop m l.elements
  ((r.1, l), r.2)

/-- Source `isc_mem_strdup` applied to a union string field (the field is
non-NULL for every live `key`/`acl` element; the `none` fallback keeps
the function total). -/
def strdupOpt (m : Mem) (s : Option String) : Option String × Mem :=
  match s with
  | some str => isc_mem_strdup m str
  | Option.none => (Option.none, m)

mutual
/-- Source `dns_c_ipmatchelement_copy` (confip.c:137-194): allocate a fresh
element, copy the tag and flags, then per-variant — pattern copies the
address and mask by value; indirect recursively copies the inner list
into the new element's list slot, but the recursive result is only
stored into the local `result` variable, which the tail of the function
ignores: execution falls through to `*dest = newel; return
(ISC_R_SUCCESS);` (the copied refname is never set, the union having
been zeroed by `dns_c_ipmatchelement_new`); key/acl `strdup` their
strings (the `strdup` result is not checked); the `none` tag logs and
returns `ISC_R_FAILURE` with `*dest` unwritten. -/
def dns_c_ipmatchelement_copy (m : Mem) (src : IpMatchElement) :
    (IscResult × Option IpMatchElement) × Mem :=
  match dns_c_ipmatchelement_new m with
  | ((.success, some newel), m1) =>
      match src with
      | .mk _ sflags (.pattern a mask) =>
          ((.success, some (.mk newel.eid sflags (.pattern a mask))), m1)
      | .mk _ sflags (.indirect (some inner) _) =>
          let r2 := dns_c_ipmatchlist_copy m1 inner
          ((.success, some (.mk newel.eid sflags (.indirect r2.1.2 Option.none))), r2.2)
      | .mk _ sflags (.indirect Option.none _) =>
          -- REQUIRE violation inside the recursive call in the source
          -- (the inner list of a live indirect element is never NULL);
          -- unreachable for valid elements.
          ((.success, some (.mk newel.eid sflags (.indirect Option.none Option.none))), m1)
      | .mk _ sflags .localhost =>
          ((.success, some (.mk newel.eid sflags .localhost)), m1)
      | .mk _ sflags .localnets =>
          ((.success, some (.mk newel.eid sflags .localnets)), m1)
      | .mk _ sflags (.key k) =>
          let r2 := strdupOpt m1 k
          ((.success, some (.mk newel.eid sflags (.key r2.1))), r2.2)
      | .mk _ sflags (.acl a) =>
          let r2 := strdupOpt m1 a
          ((.success, some (.mk newel.eid sflags (.acl r2.1))), r2.2)
      | .mk _ _ IpMatchVal.none => ((.failure, Option.none), m1)
  | ((r, _), m1) => ((r, Option.none), m1)
termination_by sizeOf src

/-- Source `dns_c_ipmatchlist_copy` (confip.c:549-585): `*dest` is cleared,
then a fresh list is allocated and the source's elements are copied onto
it in order; if an element copy fails, the partially built clone is
detached (releasing it and its copied elements) and the error is
propagated with `*dest` still NULL. -/
def dns_c_ipmatchlist_copy (m : Mem) (src : IpMatchList) :
    (IscResult × Option IpMatchList) × Mem :=
  match src with
  | .mk _ _ els =>
      match dns_c_ipmatchlist_new m with
      | ((.success, some newl), m1) =>
          match copyElems m1 els [] with
          | ((.success, copied), m2) =>
              ((.success, some (.mk newl.lid newl.refcount copied)), m2)
          | ((r, built), m2) =>
              let r3 := dns_c_ipmatchlist_detach m2 (.mk newl.lid newl.refcount built)
              ((r, Option.none), r3.2)
      | ((r, _), m1) => ((r, Option.none), m1)
termination_by sizeOf src

/-- The copy loop of `dns_c_ipmatchlist_copy` (confip.c:569-580),
carrying the elements appended onto the new list so far. -/
def copyElems (m : Mem) (es : List IpMatchElement) (acc : List IpMatchElement) :
    (IscResult × List IpMatchElement) × Mem :=
  match es with
  | [] => ((.success, acc), m)
  | e :: rest =>
      match dns_c_ipmatchelement_copy m e with
      | ((.success, some c), m1) => copyElems m1 rest (acc ++ [c])
      | ((r, _), m1) => ((r, acc), m1)
termination_by sizeOf es
end

/-- The copy-and-append loop of `dns_c_ipmatchlist_append`
(confip.c:627-643): copy each source element, negate the copy when
`negate` is set, append it to the destination; stop on the first copy
failure, returning its result. -/
def appendElems (m : Mem) (srcEls : List IpMatchElement) (negate : Bool)
    (destEls : List IpMatchElement) : (IscResult × List IpMatchElement) × Mem :=
  match srcEls with
  | [] => ((.success, destEls), m)
  | e :: rest =>
      match dns_c_ipmatchelement_copy m e with
      | ((.success, some c), m1) =>
          let c1 := if negate then (dns_c_ipmatch_negate c).2 else c
          appendElems m1 rest negate (destEls ++ [c1])
      | ((r, _), m1) => ((r, destEls), m1)

/-- Source `dns_c_ipmatchlist_append` (confip.c:614-646). -/
def dns_c_ipmatchlist_append (m : Mem) (dest src : IpMatchList) (negate : Bool) :
    (IscResult × IpMatchList) × Mem :=
  let r := appendElems m src.elements negate dest.elements
  ((r.1.1, .mk dest.lid dest.refcount r.1.2), r.2)

/-- Source `dns_c_ipmatchlocalhost_new` (confip.c:237-257): a fresh element
retagged `localhost` on success; `*result` is the (NULL) element
pointer on failure. -/
def dns_c_ipmatchlocalhost_new (m : Mem) : (IscResult × Option IpMatchElement) × Mem :=
  match dns_c_ipmatchelement_new m with
  | ((.success, some e), m1) => ((.success, some (.mk e.eid e.flags .localhost)), m1)
  | ((r, _), m1) => ((r, Option.none), m1)

/-- Source `dns_c_ipmatchlocalnets_new` (confip.c:260-281). -/
def dns_c_ipmatchlocalnets_new (m : Mem) : (IscResult × Option IpMatchElement) × Mem :=
  match dns_c_ipmatchelement_new m with
  | ((.success, some e), m1) => ((.success, some (.mk e.eid e.flags .localnets)), m1)
  | ((r, _), m1) => ((r, Option.none), m1)

/-- Source `dns_c_ipmatchindirect_new` (confip.c:284-325): deep-copies the
given list, then allocates the element; on element-allocation failure
the copy is detached again and the error returned.  The optional
reference name is stored (its buffer allocation is guarded by
`RUNTIME_CHECK`, which aborts rather than fails, so it is modelled as
always succeeding). -/
def dns_c_ipmatchindirect_new (m : Mem) (iml : IpMatchList) (name : Option String) :
    (IscResult × Option IpMatchElement) × Mem :=
  match dns_c_ipmatchlist_copy m iml with
  | ((.success, some cp), m1) =>
      match dns_c_ipmatchelement_new m1 with
      | ((.success, some e), m2) =>
          ((.success, some (.mk e.eid e.flags (.indirect (some cp) name))), m2)
      | ((r, _), m2) =>
          let r3 := dns_c_ipmatchlist_detach m2 cp
          ((r, Option.none), r3.2)
  | ((r, _), m1) => ((r, Option.none), m1)

/-- Source `dns_c_ipmatchkey_new` (confip.c:364-390): fresh element retagged
`key` with a strdup'd copy of the key name (the strdup result is not
checked). -/
def dns_c_ipmatchkey_new (m : Mem) (keyname : String) :
    (IscResult × Option IpMatchElement) × Mem :=
  match dns_c_ipmatchelement_new m with
  | ((.success, some e), m1) =>
      let r2 := isc_mem_strdup m1 keyname
      ((.success, some (.mk e.eid e.flags (.key r2.1))), r2.2)
  | ((r, _), m1) => ((r, Option.none), m1)

/-- Source `dns_c_ipmatch_aclnew` (confip.c:393-420): fresh element retagged
`acl` with a strdup'd copy of the (non-empty) ACL name. -/
def dns_c_ipmatch_aclnew (m : Mem) (aclname : String) :
    (IscResult × Option IpMatchElement) × Mem :=
  match dns_c_ipmatchelement_new m with
  | ((.success, some e), m1) =>
      let r2 := isc_mem_strdup m1 aclname
      ((.success, some (.mk e.eid e.flags (.acl r2.1))), r2.2)
  | ((r, _), m1) => ((r, Option.none), m1)

/-! ## Netmask validation (`checkmask`, `bits2v6mask`) -/

/-- A 32-bit byte swap; `ntohl` on the little-endian hosts this code
ships on.  The outcome of `checkmask`'s IPv4 comparison does not depend
on the host byte order, because the swap is a byte permutation applied
uniformly under the bitwise AND. -/
def byteswap32 (x : Nat) : Nat :=
  ((x &&& 0xff) <<< 24) ||| (((x >>> 8) &&& 0xff) <<< 16) |||
    (((x >>> 16) &&& 0xff) <<< 8) ||| ((x >>> 24) &&& 0xff)

/-- Source `ntohl`. -/
def ntohl (x : Nat) : Nat := byteswap32 x

/-- The four 32-bit words of the 128-bit mask computed by
`bits2v6mask` (confip.c:1034-1053), word 0 holding the highest-order
bits.  Shifts are the C unsigned 32-bit shifts (the function insists
`bits < 128`, so every shift count here is in range for `bits` in
`1..127`). -/
def v6maskWords (bits : Nat) : List Nat :=
  [if bits > 32 then 0xffffffff
   else if bits > 0 then (0xffffffff <<< (32 - bits)) % 4294967296 else 0,
   if bits > 64 then 0xffffffff
   else if bits > 32 then (0xffffffff <<< (64 - bits)) % 4294967296 else 0,
   if bits > 96 then 0xffffffff
   else if bits > 64 then (0xffffffff <<< (96 - bits)) % 4294967296 else 0,
   if bits > 96 then (0xffffffff <<< (128 - bits)) % 4294967296 else 0]

/-- The 16 mask bytes denoted by the 8-group hexadecimal IPv6 literal
`sprintf` renders from `v6maskWords` (confip.c:1057-1065): each word
contributes its four bytes, most significant first — this is the mask
`bits2v6mask` is documented to install in `*addr`. -/
def v6maskBytes (bits : Nat) : List Nat :=
  (v6maskWords bits).flatMap
    (fun w => [(w >>> 24) &&& 0xff, (w >>> 16) &&& 0xff, (w >>> 8) &&& 0xff,
               w &&& 0xff])

/-- Source `bits2v6mask` (confip.c:1024-1070): `INSIST(bits < 128)`; computes
`v6maskWords`, zeroes `*addr` with `memset`, renders the words as a
well-formed 8-group IPv6 literal, and then calls
`inet_pton(AF_INET6, addrbuff, &addr)` — passing the address of the
local *pointer variable* `addr` instead of the `struct in6_addr` it
points to.  The parsed mask therefore never reaches `*addr`, which
keeps its `memset` value of 16 zero bytes; `inet_pton` parses the
well-formed literal and returns 1, so the function reports
`ISC_R_SUCCESS`. -/
def bits2v6mask (_bits : Nat) : IscResult × List Nat :=
  (.success, List.replicate 16 0)

/-- Source `checkmask` (confip.c:981-1015): `bits = 0` always succeeds.  For
`AF_INET`, build `mask = ntohl(0xffffffff << (32 - bits))` and require
`(mask & s_addr) == s_addr` (for `bits > 32` the C shift is undefined;
theorems below stay within `bits ≤ 32`).  For `AF_INET6`, obtain the
mask bytes from `bits2v6mask` and require `(addr[i] & mask[i]) ==
addr[i]` for all 16 bytes.  Any other family falls through to
`ISC_R_SUCCESS`. -/
def checkmask (address : Sockaddr) (bits : Nat) : IscResult :=
  if bits > 0 then
    match address with
    | .v4 s_addr =>
        let mask := ntohl ((0xffffffff <<< (32 - bits)) % 4294967296)
        if mask &&& s_addr = s_addr then .success else .failure
    | .v6 bytes =>
        match bits2v6mask bits with
        | (.success, maskBytes) =>
            if (List.range 16).all
                (fun i => (bytes.getD i 0 &&& maskBytes.getD i 0) == bytes.getD i 0)
              then .success else .failure
        | _ => .failure
    | _ => .success
  else .success

/-- Source `dns_c_ipmatchpattern_new` (confip.c:328-361): validate the
address/prefix pair with `checkmask` first, failing without building
anything; then allocate the element and tag it `pattern`. -/
def dns_c_ipmatchpattern_new (m : Mem) (address : Sockaddr) (maskbits : Nat) :
    (IscResult × Option IpMatchElement) × Mem :=
  match checkmask address maskbits with
  | .success =>
      match dns_c_ipmatchelement_new m with
      | ((.success, some e), m1) =>
          ((.success, some (.mk e.eid e.flags (.pattern address maskbits))), m1)
      | ((r, _), m1) => ((r, Option.none), m1)
  | r => ((r, Option.none), m)

mutual
/-- The allocator identities (heap addresses) of every cell reachable
from an element: its own cell, plus — for an indirect element — the
cells of its inner list. -/
def IpMatchElement.ids : IpMatchElement → List Nat
  | .mk i _ (.indirect (some inner) _) => i :: inner.ids
  | .mk i _ _ => [i]

/-- The allocator identities of every cell reachable from a list: its
own cell plus those of its elements. -/
def IpMatchList.ids : IpMatchList → List Nat
  | .mk i _ es => i :: elemsIds es

/-- The allocator identities reachable from a sequence of elements. -/
def elemsIds : List IpMatchElement → List Nat
  | [] => []
  | e :: rest => e.ids ++ elemsIds rest
end

mutual
/-- The liveness invariant the C code maintains for elements placed in
lists: the tag is never the `none` placeholder, an indirect element's
inner list pointer is non-NULL (and its list is itself live), and
key/acl elements hold their strings. -/
def elemValid : IpMatchElement → Bool
  | .mk _ _ IpMatchVal.none => false
  | .mk _ _ (.indirect (some inner) _) => listValid inner
  | .mk _ _ (.indirect Option.none _) => false
  | .mk _ _ (.key (some _)) => true
  | .mk _ _ (.key Option.none) => false
  | .mk _ _ (.acl (some _)) => true
  | .mk _ _ (.acl Option.none) => false
  | .mk _ _ _ => true

/-- A live list: every element is live. -/
def listValid : IpMatchList → Bool
  | .mk _ _ es => elemsValid es

/-- Liveness of a sequence of elements. -/
def elemsValid : List IpMatchElement → Bool
  | [] => true
  | e :: rest => elemValid e && elemsValid rest
end

/-! ## Flat IP list (`dns_c_iplist_t`)

The struct holds a heap array `ips` of `size` entries (`ips` models the
whole allocated array, so its length is `size`), a logical length
`nextidx`, and a reference count. -/

/-- Source `dns_c_iplist_t`: the backing array (all `size` slots, zero-filled
past `nextidx` by construction), its capacity, the logical length, and
the reference count. -/
structure IpList where
  ips : List Sockaddr
  size : Nat
  nextidx : Nat
  refcount : Nat
deriving DecidableEq, Repr

/-- Well-formedness maintained by the `dns_c_iplist_*` code: the array
really has `size` slots and the logical length fits. -/
def IpListWF (l : IpList) : Prop :=
  l.ips.length = l.size ∧ l.nextidx ≤ l.size

instance (l : IpList) : Decidable (IpListWF l) := by
  unfold IpListWF; infer_instance

/-- Source `dns_c_iplist_new` (confip.c:745-781): allocates the list struct and
a zero-filled array of `length` sockaddrs; `REQUIRE(length > 0)`.  On
array-allocation failure the struct is handed back before returning
`ISC_R_NOMEMORY`. -/
def dns_c_iplist_new (m : Mem) (length : Nat) : (IscResult × Option IpList) × Mem :=
  match isc_mem_get m with
  | (none, m1) => ((.nomemory, none), m1)
  | (some hid, m1) =>
      match isc_mem_get m1 with
      | (none, m2) => ((.nomemory, none), isc_mem_put m2 hid)
      | (some _, m2) =>
          ((.success,
            some { ips := List.replicate length Sockaddr.zeroed, size := length,
                   nextidx := 0, refcount := 1 }), m2)

/-- The duplicate scan of `dns_c_iplist_append` (confip.c:909-913):
`for (i = 0; i < nextidx; i++) if (memcmp(&ips[i], &newaddr, ...) == 0) break;`
returning the final value of `i`. -/
def appendScan (l : IpList) (a : Sockaddr) (i : Nat) : Nat :=
  if i < l.nextidx then
    if l.ips.getD i Sockaddr.zeroed = a then i else appendScan l a (i + 1)
  else i
termination_by l.nextidx - i

/-- Source `dns_c_iplist_append` (confip.c:899-943): scans the populated
entries for a byte-equal duplicate and returns `ISC_R_FAILURE` if one is
found; otherwise, when the list is full (`nextidx == size`), allocates a
zero-filled array of `size + 10` slots, copies the old `size` entries in
(`l.ips` is exactly the old array, so the `memcpy` of `oldbytes` is the
whole of it) and releases the old array; finally stores the new address
at index `i = nextidx` and increments `nextidx`. -/
def dns_c_iplist_append (m : Mem) (l : IpList) (newaddr : Sockaddr) :
    (IscResult × IpList) × Mem :=
  let i := appendScan l newaddr 0
  if i < l.nextidx then
    ((.failure, l), m)
  else if l.nextidx = l.size then
    match isc_mem_get m with
    | (none, m1) => ((.nomemory, l), m1)
    | (some _, m1) =>
        let newips := l.ips ++ List.replicate 10 Sockaddr.zeroed
        ((.success,
          { ips := newips.set i newaddr, size := l.size + 10,
            nextidx := l.nextidx + 1, refcount := l.refcount }), m1)
  else
    ((.success, { l with ips := l.ips.set i newaddr, nextidx := l.nextidx + 1 }), m)

/-- The scan of `dns_c_iplist_remove` (confip.c:956-960), transcribed
with the index the source actually uses:
`for (i = 0; i < nextidx; i++) if (memcmp(&ips[0], &newaddr, ...) == 0) break;`
— every iteration compares slot 0, not slot `i`. -/
def removeScan (l : IpList) (a : Sockaddr) (i : Nat) : Nat :=
  if i < l.nextidx then
    if l.ips.getD 0 Sockaddr.zeroed = a then i else removeScan l a (i + 1)
  else i
termination_by l.nextidx - i

/-- The shift of `dns_c_iplist_remove` (confip.c:967-969):
`for (; i < nextidx; i++) ips[i] = ips[i+1];` with `nextidx` already
decremented to `n`. -/
def shiftDown (ips : List Sockaddr) (i n : Nat) : List Sockaddr :=
  if i < n then
    shiftDown (ips.set i (ips.getD (i + 1) Sockaddr.zeroed)) (i + 1) n
  else ips
termination_by n - i

/-- Source `dns_c_iplist_remove` (confip.c:946-972): runs the (slot-0) scan;
if it ran off the end, `ISC_R_FAILURE`; otherwise decrements `nextidx`
and shifts the entries above the found index down by one. -/
def dns_c_iplist_remove (l : IpList) (newaddr : Sockaddr) : IscResult × IpList :=
  let i := removeScan l newaddr 0
  if i = l.nextidx then
    (.failure, l)
  else
    let n := l.nextidx - 1
    (.success, { l with ips := shiftDown l.ips i n, nextidx := n })

/-- Test harness: fold `dns_c_iplist_append` over a list of addresses,
reporting whether every single call returned `ISC_R_SUCCESS`. -/
def appendAll (m : Mem) (l : IpList) : List Sockaddr → (Bool × IpList) × Mem
  | [] => ((true, l), m)
  | a :: rest =>
      match dns_c_iplist_append m l a with
      | ((.success, l1), m1) => appendAll m1 l1 rest
      | ((_, l1), m1) => ((false, l1), m1)

/-- A two-entry list whose second populated entry is `v4 2`. -/
def c2List : IpList :=
  { ips := [Sockaddr.v4 1, Sockaddr.v4 2, Sockaddr.zeroed],
    size := 3, nextidx := 2, refcount := 1 }

/-- The 11 distinct addresses appended in the C7 scenario. -/
def c7Addrs : List Sockaddr :=
  [Sockaddr.v4 1, Sockaddr.v4 2, Sockaddr.v4 3, Sockaddr.v4 4, Sockaddr.v4 5,
   Sockaddr.v4 6, Sockaddr.v4 7, Sockaddr.v4 8, Sockaddr.v4 9, Sockaddr.v4 10,
   Sockaddr.v4 11]

/-- The C7 scenario list after `k` successful appends (capacity still
10): entries `v4 1 .. v4 k` followed by the zero-filled remainder. -/
def c7List (k : Nat) : IpList :=
  { ips := (List.range k).map (fun j => Sockaddr.v4 (j + 1)) ++
      List.replicate (10 - k) Sockaddr.zeroed,
    size := 10, nextidx := k, refcount := 1 }

/-- The C7 scenario list after all 11 appends: capacity 20, length 11. -/
def c7Final : IpList :=
  { ips := (List.range 11).map (fun j => Sockaddr.v4 (j + 1)) ++
      List.replicate 9 Sockaddr.zeroed,
    size := 20, nextidx := 11, refcount := 1 }

/-- The 16 bytes of the IPv6 address `2001:db8::`: its set bits all lie
inside the first 32 (prefix) bits. -/
def c3Addr : List Nat :=
  [0x20, 0x01, 0x0d, 0xb8, 0, 0, 0, 0, 0, 0, 0, 0, 0, 0, 0, 0]

/-- The `isc_buffer_t` fields the corruption pipeline touches: the
used/current cursors and the active length handed to
`dns_rdata_fromwire`. -/
structure WireBuf where
  used : Nat
  current : Nat
  active : Nat
deriving DecidableEq, Repr

/-- Modelled from the spec: `isc_buffer_add(b, n)` "grows the used
length" of the buffer by `n` bytes (the buffer implementation is not in
this slice; its `REQUIRE(b->used + n <= b->length)` only aborts, it
never fails). -/
def isc_buffer_add (b : WireBuf) (n : Nat) : WireBuf :=
  { b with used := b.used + n }

/-- Modelled from the spec: `isc_buffer_setactive(b, n)` makes `n`
bytes the active region that `dns_rdata_fromwire` will consume. -/
def isc_buffer_setactive (b : WireBuf) (n : Nat) : WireBuf :=
  { b with active := n }

/-- The corruption pipeline of `main` (rdata_test.c:462-487), run after
a successful `dns_rdata_towire`: `len = wbuf.used - wbuf.current`; `-z`
(`zero`) forces `len = 0`; `-t` (`trunc`) replaces it by `len * 3 / 4`;
`-a` (`add`) first grows the buffer's used length by `len / 4 + 1`
bytes and then adds the same quantity to `len`; finally `len` is made
the buffer's active length.  Returns the final buffer and `len`. -/
def rdata_test_corrupt (wbuf : WireBuf) (zero trunc add : Bool) : WireBuf × Nat :=
  let len := wbuf.used - wbuf.current
  let len1 := if zero then 0 else len
  let len2 := if trunc then len1 * 3 / 4 else len1
  let wbuf1 := if add then isc_buffer_add wbuf (len2 / 4 + 1) else wbuf
  let len3 := if add then len2 + (len2 / 4 + 1) else len2
  (isc_buffer_setactive wbuf1 len3, len3)

/-- The claim's description of the pipeline, following the spec's
words: starting from the successful encoding's length `L`, `-z` sets
the length to 0, then `-t` replaces it with three quarters of its
current value in integer arithmetic, then `-a` adds `length/4 + 1`
computed from the current value. -/
def specActiveLength (L : Nat) (zero trunc add : Bool) : Nat :=
  let l1 := if zero then 0 else L
  let l2 := if trunc then 3 * l1 / 4 else l1
  if add then l2 + (l2 / 4 + 1) else l2

/-- The amount by which the spec says `-a` grows the used length: a
quarter of the post-`-z`/`-t` length, plus one. -/
def specUsedGrowth (L : Nat) (zero trunc add : Bool) : Nat :=
  let l1 := if zero then 0 else L
  let l2 := if trunc then 3 * l1 / 4 else l1
  if add then l2 / 4 + 1 else 0

/-! ## Pointwise behaviour of the flat-list loops -/

theorem getD_set_pointwise (xs : List Sockaddr) (i j : Nat) (x d : Sockaddr) :
    (xs.set i x).getD j d = if i = j ∧ j < xs.length then x else xs.getD j d := by
  simp only [List.getD_eq_getD_get?, List.get?_eq_getElem?, List.getElem?_set]
  by_cases h1 : i = j
  · subst h1
    by_cases h2 : i < xs.length
    · simp [h2]
    · simp [h2, List.getElem?_eq_none (Nat.le_of_not_lt h2)]
  · simp [h1]

theorem removeScan_eq (l : IpList) (a : Sockaddr) (i : Nat) (h : i ≤ l.nextidx) :
    removeScan l a i =
      if i < l.nextidx ∧ l.ips.getD 0 Sockaddr.zeroed = a then i else l.nextidx := by
  induction i using removeScan.induct l a with
  | case1 i h1 h2 =>
      rw [removeScan, if_pos h1, if_pos h2, if_pos ⟨h1, h2⟩]
  | case2 i h1 h2 ih =>
      rw [removeScan, if_pos h1, if_neg h2, ih (by omega),
        if_neg (fun hc => h2 hc.2), if_neg (fun hc => h2 hc.2)]
  | case3 i h1 =>
      rw [removeScan, if_neg h1, if_neg (fun hc => h1 hc.1)]
      omega

theorem appendScan_lt (l : IpList) (a : Sockaddr) (i : Nat)
    (h : ∃ j, i ≤ j ∧ j < l.nextidx ∧ l.ips.getD j Sockaddr.zeroed = a) :
    appendScan l a i < l.nextidx := by
  induction i using appendScan.induct l a with
  | case1 i h1 h2 => rw [appendScan, if_pos h1, if_pos h2]; exact h1
  | case2 i h1 h2 ih =>
      rw [appendScan, if_pos h1, if_neg h2]
      refine ih ?_
      obtain ⟨j, hij, hj, hja⟩ := h
      refine ⟨j, ?_, hj, hja⟩
      rcases Nat.eq_or_lt_of_le hij with rfl | hlt
      · exact absurd hja h2
      · omega
  | case3 i h1 =>
      obtain ⟨j, hij, hj, _⟩ := h
      omega

theorem appendScan_eq_of_no_dup (l : IpList) (a : Sockaddr) (i : Nat)
    (hle : i ≤ l.nextidx)
    (h : ∀ j, i ≤ j → j < l.nextidx → l.ips.getD j Sockaddr.zeroed ≠ a) :
    appendScan l a i = l.nextidx := by
  induction i using appendScan.induct l a with
  | case1 i h1 h2 =>
      exact absurd h2 (h i (Nat.le_refl i) h1)
  | case2 i h1 h2 ih =>
      rw [appendScan, if_pos h1, if_neg h2]
      exact ih (by omega) (fun j hij hj => h j (by omega) hj)
  | case3 i h1 =>
      rw [appendScan, if_neg h1]
      omega

theorem shiftDown_getD (ips : List Sockaddr) (i n : Nat) : ∀ j,
    (shiftDown ips i n).getD j Sockaddr.zeroed =
      if i ≤ j ∧ j < n then ips.getD (j + 1) Sockaddr.zeroed
      else ips.getD j Sockaddr.zeroed := by
  induction ips, i, n using shiftDown.induct with
  | case1 ips i n h1 ih =>
      intro j
      rw [shiftDown, if_pos h1, ih j]
      by_cases hj1 : i + 1 ≤ j ∧ j < n
      · rw [if_pos hj1, getD_set_pointwise, if_neg (by omega),
          if_pos ⟨by omega, hj1.2⟩]
      · rw [if_neg hj1, getD_set_pointwise]
        by_cases hj2 : i = j ∧ j < ips.length
        · obtain ⟨rfl, hlen⟩ := hj2
          rw [if_pos ⟨rfl, hlen⟩, if_pos ⟨Nat.le_refl i, h1⟩]
        · rw [if_neg hj2]
          by_cases hj3 : i ≤ j ∧ j < n
          · have hij : i = j := by omega
            subst hij
            have hlen : ips.length ≤ i := by
              by_contra hlt
              push_neg at hlt
              exact hj2 ⟨rfl, hlt⟩
            rw [if_pos hj3, List.getD_eq_default _ _ hlen,
              List.getD_eq_default _ _ (show ips.length ≤ i + 1 by omega)]
          · rw [if_neg hj3]
  | case2 ips i n h1 =>
      intro j
      rw [shiftDown, if_neg h1, if_neg (by omega)]

/-! ## Claim C2 — `dns_c_iplist_remove` -/

/-- C2, counterexample: the list holds a populated entry byte-equal to
the requested address (`v4 2` at index 1), yet `dns_c_iplist_remove`
returns `ISC_R_FAILURE` — its scan compares every candidate against slot
0 rather than the loop index, so only the slot-0 value can ever be
removed.  This refutes "returns Failure if and only if no populated
entry of the list is byte-equal to the given address". -/
theorem claim_C2_counterexample :
    1 < c2List.nextidx ∧
    c2List.ips.getD 1 Sockaddr.zeroed = Sockaddr.v4 2 ∧
    dns_c_iplist_remove c2List (Sockaddr.v4 2) = (.failure, c2List) := by
  refine ⟨by simp [c2List], by simp [c2List], ?_⟩
  simp [dns_c_iplist_remove, removeScan, c2List]

/-- C2, amended: `dns_c_iplist_remove` returns `ISC_R_FAILURE` (leaving
the list untouched) exactly when the list is empty or slot 0 is not
byte-equal to the given address; when slot 0 does match, it removes the
entry at index 0, shifts every subsequent populated entry down by one
position, and decrements the length by one (entries at or above the new
length are left as they were). -/
theorem claim_C2_amended (l : IpList) (a : Sockaddr) :
    ((dns_c_iplist_remove l a = (.failure, l)) ↔
      (l.nextidx = 0 ∨ l.ips.getD 0 Sockaddr.zeroed ≠ a)) ∧
    (0 < l.nextidx → l.ips.getD 0 Sockaddr.zeroed = a →
      (dns_c_iplist_remove l a).1 = .success ∧
      (dns_c_iplist_remove l a).2.nextidx = l.nextidx - 1 ∧
      (∀ j, j < l.nextidx - 1 →
        (dns_c_iplist_remove l a).2.ips.getD j Sockaddr.zeroed =
          l.ips.getD (j + 1) Sockaddr.zeroed) ∧
      (∀ j, l.nextidx - 1 ≤ j →
        (dns_c_iplist_remove l a).2.ips.getD j Sockaddr.zeroed =
          l.ips.getD j Sockaddr.zeroed)) := by
  have hscan := removeScan_eq l a 0 (Nat.zero_le _)
  constructor
  · constructor
    · intro hfail
      by_contra hc
      push_neg at hc
      obtain ⟨h0, ha⟩ := hc
      have h0' : 0 < l.nextidx := Nat.pos_of_ne_zero h0
      have : removeScan l a 0 = 0 := by rw [hscan, if_pos ⟨h0', ha⟩]
      rw [dns_c_iplist_remove] at hfail
      simp only [this] at hfail
      rw [if_neg (by omega)] at hfail
      exact absurd (congrArg Prod.fst hfail) (by simp)
    · intro hc
      have : removeScan l a 0 = l.nextidx := by
        rw [hscan]
        rcases hc with h0 | ha
        · rw [if_neg (by omega)]
        · rw [if_neg (fun hx => ha hx.2)]
      rw [dns_c_iplist_remove]
      simp only [this]
      simp
  · intro h0 ha
    have hz : removeScan l a 0 = 0 := by rw [hscan, if_pos ⟨h0, ha⟩]
    have hne : ¬(removeScan l a 0 = l.nextidx) := by omega
    rw [dns_c_iplist_remove]
    simp only [hz]
    rw [if_neg (by omega)]
    refine ⟨rfl, rfl, ?_, ?_⟩
    · intro j hj
      simp only [shiftDown_getD]
      rw [if_pos ⟨Nat.zero_le _, hj⟩]
    · intro j hj
      simp only [shiftDown_getD]
      rw [if_neg (by omega)]

/-- C2, witness for the amended theorem: on `c2List` with address
`v4 1` (the slot-0 value) removal succeeds, drops the length to 1 and
shifts `v4 2` into slot 0; on address `v4 2` it fails. -/
theorem claim_C2_amended_witness :
    (dns_c_iplist_remove c2List (Sockaddr.v4 2) = (.failure, c2List)) ∧
    (0 : Nat) < c2List.nextidx ∧
    c2List.ips.getD 0 Sockaddr.zeroed = Sockaddr.v4 1 ∧
    (dns_c_iplist_remove c2List (Sockaddr.v4 1)).1 = .success ∧
    (dns_c_iplist_remove c2List (Sockaddr.v4 1)).2.nextidx = 1 := by
  have h1 := (claim_C2_amended c2List (Sockaddr.v4 2)).1.mpr
    (Or.inr (by simp [c2List]))
  have h2 := (claim_C2_amended c2List (Sockaddr.v4 1)).2
    (by simp [c2List]) (by simp [c2List])
  exact ⟨h1, by simp [c2List], by simp [c2List], h2.1, h2.2.1⟩

/-! ## Claim C6 — duplicate append is rejected -/

/-- C6: appending an address byte-equal to an already-populated entry
returns `ISC_R_FAILURE` and leaves the list (and the allocator) exactly
as they were. -/
theorem claim_C6 (m : Mem) (l : IpList) (a : Sockaddr) (j : Nat)
    (hj : j < l.nextidx) (ha : l.ips.getD j Sockaddr.zeroed = a) :
    dns_c_iplist_append m l a = ((.failure, l), m) := by
  have hlt : appendScan l a 0 < l.nextidx :=
    appendScan_lt l a 0 ⟨j, Nat.zero_le _, hj, ha⟩
  rw [dns_c_iplist_append]
  simp only [if_pos hlt]

/-- C6, witness: a second append of `v4 7` to a list already holding it
fails and changes nothing. -/
theorem claim_C6_witness :
    (0 : Nat) < (1 : Nat) ∧
    ({ ips := [Sockaddr.v4 7, Sockaddr.zeroed], size := 2, nextidx := 1,
       refcount := 1 } : IpList).ips.getD 0 Sockaddr.zeroed = Sockaddr.v4 7 ∧
    dns_c_iplist_append { next := 0, fail := [], freed := [] }
        { ips := [Sockaddr.v4 7, Sockaddr.zeroed], size := 2, nextidx := 1,
          refcount := 1 } (Sockaddr.v4 7) =
      ((.failure, { ips := [Sockaddr.v4 7, Sockaddr.zeroed], size := 2,
                    nextidx := 1, refcount := 1 }),
       { next := 0, fail := [], freed := [] }) :=
  ⟨by decide, by simp,
   claim_C6 { next := 0, fail := [], freed := [] }
     { ips := [Sockaddr.v4 7, Sockaddr.zeroed], size := 2, nextidx := 1,
       refcount := 1 } (Sockaddr.v4 7) 0 (by simp) (by simp)⟩

/-! ## Claim C7 — capacity growth by ten -/

/-- General form of the non-growing append: on a non-full list holding
no byte-equal duplicate, `dns_c_iplist_append` stores the address at
index `nextidx`, bumps the length and allocates nothing. -/
theorem iplist_append_not_full (m : Mem) (l : IpList) (a : Sockaddr)
    (hnodup : ∀ j, j < l.nextidx → l.ips.getD j Sockaddr.zeroed ≠ a)
    (hlt : l.nextidx < l.size) :
    dns_c_iplist_append m l a =
      ((.success,
        { l with ips := l.ips.set l.nextidx a, nextidx := l.nextidx + 1 }), m) := by
  have hscan : appendScan l a 0 = l.nextidx :=
    appendScan_eq_of_no_dup l a 0 (Nat.zero_le _) (fun j _ hj => hnodup j hj)
  rw [dns_c_iplist_append]
  simp only [hscan]
  rw [if_neg (by omega), if_neg (by omega)]

/-- General form of the growing append: on a full list (`nextidx =
size`) whose backing array is well-formed, a non-duplicate append with a
succeeding allocation replaces the array by a zero-filled one with
exactly 10 more slots (old entries copied in), stores the address at the
old length and bumps the length. -/
theorem iplist_append_full (m : Mem) (l : IpList) (a : Sockaddr)
    (_hwf : IpListWF l) (hfull : l.nextidx = l.size)
    (hnodup : ∀ j, j < l.nextidx → l.ips.getD j Sockaddr.zeroed ≠ a)
    (hfail : m.fail = []) :
    dns_c_iplist_append m l a =
      ((.success,
        { ips := (l.ips ++ List.replicate 10 Sockaddr.zeroed).set l.nextidx a,
          size := l.size + 10, nextidx := l.nextidx + 1,
          refcount := l.refcount }),
       { m with next := m.next + 1 }) := by
  have hscan : appendScan l a 0 = l.nextidx :=
    appendScan_eq_of_no_dup l a 0 (Nat.zero_le _) (fun j _ hj => hnodup j hj)
  rw [dns_c_iplist_append]
  simp only [hscan]
  rw [if_neg (by omega), if_pos hfull]
  have hget : isc_mem_get m = (some m.next, { m with next := m.next + 1 }) := by
    rw [isc_mem_get, hfail]
  rw [hget]

/-- C7: on a full well-formed list a successful append grows the
capacity by exactly 10 zero-filled slots (old entries copied in, new
address stored at the old length, length incremented); and, concretely,
appending the 11 distinct addresses of `c7Addrs` to a freshly created
capacity-10 list succeeds at every step, the one expansion taking the
capacity to 20 and the final length being 11. -/
theorem claim_C7 :
    (∀ (m : Mem) (l : IpList) (a : Sockaddr),
      IpListWF l → l.nextidx = l.size →
      (∀ j, j < l.nextidx → l.ips.getD j Sockaddr.zeroed ≠ a) →
      m.fail = [] →
      dns_c_iplist_append m l a =
        ((.success,
          { ips := (l.ips ++ List.replicate 10 Sockaddr.zeroed).set l.nextidx a,
            size := l.size + 10, nextidx := l.nextidx + 1,
            refcount := l.refcount }),
         { m with next := m.next + 1 })) ∧
    (dns_c_iplist_new { next := 0, fail := [], freed := [] } 10 =
      ((.success, some (c7List 0)), { next := 2, fail := [], freed := [] })) ∧
    (appendAll { next := 2, fail := [], freed := [] } (c7List 0) c7Addrs =
        ((true, c7Final), { next := 3, fail := [], freed := [] }) ∧
      c7Final.nextidx = 11 ∧ c7Final.size = 20) := by
  refine ⟨fun m l a hwf hfull hnodup hfail =>
    iplist_append_full m l a hwf hfull hnodup hfail, rfl, ?_, rfl, rfl⟩
  have s1 : dns_c_iplist_append { next := 2, fail := [], freed := [] } (c7List 0) (Sockaddr.v4 1) =
      ((.success, c7List 1), { next := 2, fail := [], freed := [] }) := by
    rw [iplist_append_not_full _ _ _ (by decide) (by decide)]
    decide
  have s2 : dns_c_iplist_append { next := 2, fail := [], freed := [] } (c7List 1) (Sockaddr.v4 2) =
      ((.success, c7List 2), { next := 2, fail := [], freed := [] }) := by
    rw [iplist_append_not_full _ _ _ (by decide) (by decide)]
    decide
  have s3 : dns_c_iplist_append { next := 2, fail := [], freed := [] } (c7List 2) (Sockaddr.v4 3) =
      ((.success, c7List 3), { next := 2, fail := [], freed := [] }) := by
    rw [iplist_append_not_full _ _ _ (by decide) (by decide)]
    decide
  have s4 : dns_c_iplist_append { next := 2, fail := [], freed := [] } (c7List 3) (Sockaddr.v4 4) =
      ((.success, c7List 4), { next := 2, fail := [], freed := [] }) := by
    rw [iplist_append_not_full _ _ _ (by decide) (by decide)]
    decide
  have s5 : dns_c_iplist_append { next := 2, fail := [], freed := [] } (c7List 4) (Sockaddr.v4 5) =
      ((.success, c7List 5), { next := 2, fail := [], freed := [] }) := by
    rw [iplist_append_not_full _ _ _ (by decide) (by decide)]
    decide
  have s6 : dns_c_iplist_append { next := 2, fail := [], freed := [] } (c7List 5) (Sockaddr.v4 6) =
      ((.success, c7List 6), { next := 2, fail := [], freed := [] }) := by
    rw [iplist_append_not_full _ _ _ (by decide) (by decide)]
    decide
  have s7 : dns_c_iplist_append { next := 2, fail := [], freed := [] } (c7List 6) (Sockaddr.v4 7) =
      ((.success, c7List 7), { next := 2, fail := [], freed := [] }) := by
    rw [iplist_append_not_full _ _ _ (by decide) (by decide)]
    decide
  have s8 : dns_c_iplist_append { next := 2, fail := [], freed := [] } (c7List 7) (Sockaddr.v4 8) =
      ((.success, c7List 8), { next := 2, fail := [], freed := [] }) := by
    rw [iplist_append_not_full _ _ _ (by decide) (by decide)]
    decide
  have s9 : dns_c_iplist_append { next := 2, fail := [], freed := [] } (c7List 8) (Sockaddr.v4 9) =
      ((.success, c7List 9), { next := 2, fail := [], freed := [] }) := by
    rw [iplist_append_not_full _ _ _ (by decide) (by decide)]
    decide
  have s10 : dns_c_iplist_append { next := 2, fail := [], freed := [] } (c7List 9) (Sockaddr.v4 10) =
      ((.success, c7List 10), { next := 2, fail := [], freed := [] }) := by
    rw [iplist_append_not_full _ _ _ (by decide) (by decide)]
    decide
  have s11 : dns_c_iplist_append { next := 2, fail := [], freed := [] } (c7List 10) (Sockaddr.v4 11) =
      ((.success, c7Final), { next := 3, fail := [], freed := [] }) := by
    rw [iplist_append_full _ _ _ (by decide) (by decide) (by decide) rfl]
    decide
  simp only [c7Addrs, appendAll, s1, s2, s3, s4, s5, s6, s7, s8, s9, s10, s11]

/-- C7, witness for the growing-append clause: the full ten-entry
scenario list, extended with `v4 11`. -/
theorem claim_C7_witness :
    IpListWF (c7List 10) ∧ (c7List 10).nextidx = (c7List 10).size ∧
    (∀ j, j < (c7List 10).nextidx →
      (c7List 10).ips.getD j Sockaddr.zeroed ≠ Sockaddr.v4 11) ∧
    dns_c_iplist_append { next := 2, fail := [], freed := [] } (c7List 10)
        (Sockaddr.v4 11) =
      ((.success,
        { ips := ((c7List 10).ips ++ List.replicate 10 Sockaddr.zeroed).set
            (c7List 10).nextidx (Sockaddr.v4 11),
          size := (c7List 10).size + 10, nextidx := (c7List 10).nextidx + 1,
          refcount := (c7List 10).refcount }),
       { next := 3, fail := [], freed := [] }) :=
  ⟨by decide, by decide, by decide,
   claim_C7.1 { next := 2, fail := [], freed := [] } (c7List 10)
     (Sockaddr.v4 11) (by decide) (by decide) (by decide) rfl⟩


/-! ## Claim C4 — `dns_c_ipmatchlist_equal` -/

/-- C4, counterexample: two present empty lists have equal length (and
trivially pairwise-equal elements), yet `dns_c_ipmatchlist_equal`
returns false — the test at confip.c:596 reads `l1 != NULL || l2 !=
NULL` where `l1 == NULL || l2 == NULL` was evidently intended, so the
pairwise comparison loop is unreachable.  This refutes "for two present
lists it returns true exactly when they have equal length and their
elements are pairwise equal in order". -/
theorem claim_C4_counterexample :
    (IpMatchList.mk 0 1 []).elements.length =
      (IpMatchList.mk 1 1 []).elements.length ∧
    dns_c_ipmatchlist_equal (some (.mk 0 1 [])) (some (.mk 1 1 [])) = false :=
  ⟨rfl, rfl⟩

/-- C4, amended: `dns_c_ipmatchlist_equal` returns true exactly when
both arguments are null; two null lists compare equal, and every other
pair — exactly one side null, or both present, whatever their contents
— compares unequal (the element-comparison loop in the source is dead
code). -/
theorem claim_C4_amended (l1 l2 : Option IpMatchList) :
    dns_c_ipmatchlist_equal l1 l2 = true ↔
      (l1 = Option.none ∧ l2 = Option.none) := by
  cases l1 <;> cases l2 <;> simp [dns_c_ipmatchlist_equal]

/-! ## Claim C3 — `checkmask` / `bits2v6mask` -/

/-- C3, the defect: for the IPv6 address `2001:db8::` with prefix
length 32 the mask `bits2v6mask` computes (`v6maskBytes 32`) is
`ff:ff:ff:ff` followed by zeros, and the address passes the intended
byte-for-byte test against that mask — yet `checkmask` returns
`ISC_R_FAILURE` (so `dns_c_ipmatchpattern_new` rejects the element),
because `bits2v6mask` hands `inet_pton` the address of its local
pointer variable instead of the output struct, leaving the mask the
comparison actually uses all-zero.  The IPv4 arm behaves as the claim
states (shown here on 192.168.0.0/16 and 192.168.0.1/16, stored in
network byte order). -/
theorem claim_C3_bug :
    v6maskBytes 32 =
      [0xff, 0xff, 0xff, 0xff, 0, 0, 0, 0, 0, 0, 0, 0, 0, 0, 0, 0] ∧
    ((List.range 16).all (fun i =>
        (c3Addr.getD i 0 &&& (v6maskBytes 32).getD i 0) == c3Addr.getD i 0)
      = true) ∧
    checkmask (Sockaddr.v6 c3Addr) 32 = .failure ∧
    dns_c_ipmatchpattern_new { next := 0, fail := [], freed := [] }
        (Sockaddr.v6 c3Addr) 32 =
      ((.failure, Option.none), { next := 0, fail := [], freed := [] }) ∧
    checkmask (Sockaddr.v4 (byteswap32 0xc0a80000)) 16 = .success ∧
    checkmask (Sockaddr.v4 (byteswap32 0xc0a80001)) 16 = .failure :=
  ⟨rfl, rfl, rfl, rfl, rfl, rfl⟩

/-! ## Claim C5 — `dns_c_ipmatchlist_empty` -/

/-- C5, the defect: `dns_c_ipmatchlist_empty` returns the list with its
element chain untouched for every input (first conjunct — the loop
deletes through `dns_c_ipmatchelement_delete`, which frees the cell but
cannot unlink it, and no `ISC_LIST_UNLINK`/`ISC_LIST_INIT` is ever
performed).  Concretely, on a one-element list the call reports
`ISC_R_SUCCESS` and frees the element cell (identity 1 lands on the
freed list), yet the returned list still links to that cell: the list
is not left "containing no elements" — it dangles. -/
theorem claim_C5_bug :
    (∀ (m : Mem) (l : IpMatchList), (dns_c_ipmatchlist_empty m l).1.2 = l) ∧
    (dns_c_ipmatchlist_empty { next := 2, fail := [], freed := [] }
        (.mk 0 1 [.mk 1 0 IpMatchVal.localhost]) =
      ((.success, .mk 0 1 [.mk 1 0 IpMatchVal.localhost]),
       { next := 2, fail := [], freed := [1] })) ∧
    ((IpMatchList.mk 0 1 [.mk 1 0 IpMatchVal.localhost]).elements.map
        IpMatchElement.eid = [1]) ∧
    (IpMatchList.mk 0 1 [.mk 1 0 IpMatchVal.localhost]).elements ≠ [] :=
  ⟨fun _ _ => rfl, rfl, rfl, by simp [IpMatchList.elements]⟩

/-! ## Claim C9 — `dns_c_ipmatchelement_copy` swallows inner-copy
failures -/

/-- Whenever `dns_c_ipmatchlist_copy` does not return `ISC_R_SUCCESS`,
its destination slot is left NULL (it is cleared on entry and only
written on the success path). -/
theorem listCopy_fail_none (m : Mem) (src : IpMatchList) (r : IscResult)
    (lo : Option IpMatchList) (m2 : Mem)
    (h : dns_c_ipmatchlist_copy m src = ((r, lo), m2)) (hr : r ≠ .success) :
    lo = Option.none := by
  rcases src with ⟨lid, rc, els⟩
  simp only [dns_c_ipmatchlist_copy] at h
  rcases hn : dns_c_ipmatchlist_new m with ⟨⟨rn, ln⟩, mn⟩
  rw [hn] at h
  cases rn <;> cases ln <;> simp only [] at h
  case success.some newl =>
    rcases hc : copyElems mn els [] with ⟨⟨rc2, built⟩, mc⟩
    rw [hc] at h
    cases rc2 <;> simp only [] at h
    · exact absurd (congrArg (fun p => p.1.1) h.symm) (by simpa using hr)
    · exact (congrArg (fun p => p.1.2) h.symm).trans rfl
    · exact (congrArg (fun p => p.1.2) h.symm).trans rfl
  all_goals exact (congrArg (fun p => p.1.2) h.symm).trans rfl

/-- C9: copying an indirect element whose inner-list copy fails still
returns `ISC_R_SUCCESS` with a fresh indirect-tagged element stored in
the destination; the failed recursive copy left the new element's
inner-list slot NULL, and the failure status is discarded. -/
theorem claim_C9 (m m1 m2 : Mem) (e0 : IpMatchElement) (eidS flagsS : Nat)
    (inner : IpMatchList) (rn : Option String) (r : IscResult)
    (lo : Option IpMatchList)
    (hnew : dns_c_ipmatchelement_new m = ((.success, some e0), m1))
    (hcopy : dns_c_ipmatchlist_copy m1 inner = ((r, lo), m2))
    (hfail : r ≠ .success) :
    dns_c_ipmatchelement_copy m (.mk eidS flagsS (.indirect (some inner) rn)) =
      ((.success, some (.mk e0.eid flagsS (.indirect Option.none Option.none))), m2) := by
  have hlo : lo = Option.none := listCopy_fail_none m1 inner r lo m2 hcopy hfail
  subst hlo
  simp only [dns_c_ipmatchelement_copy]
  rw [hnew]
  dsimp only
  rw [hcopy]

/-- C9, witness: allocation script `[true, false]` lets the element
allocation succeed and makes the inner list-cell allocation fail with
`ISC_R_NOMEMORY`; the copy of a negated indirect element wrapping an
empty list nevertheless returns `ISC_R_SUCCESS`, with the inner-list
slot of the new element left NULL. -/
theorem claim_C9_witness :
    dns_c_ipmatchelement_copy { next := 0, fail := [true, false], freed := [] }
        (.mk 9 1 (.indirect (some (.mk 5 1 [])) Option.none)) =
      ((.success, some (.mk 0 1 (.indirect Option.none Option.none))),
       { next := 1, fail := [], freed := [] }) := by
  have h := claim_C9 { next := 0, fail := [true, false], freed := [] }
    { next := 1, fail := [false], freed := [] }
    { next := 1, fail := [], freed := [] }
    (.mk 0 0 IpMatchVal.none) 9 1 (.mk 5 1 []) Option.none
    .nomemory Option.none
    (by simp [dns_c_ipmatchelement_new, isc_mem_get])
    (by simp [dns_c_ipmatchlist_copy, dns_c_ipmatchlist_new, isc_mem_get])
    (by simp)
  simpa [IpMatchElement.eid] using h

/-! ## Claim C10 — fresh elements are never negated -/

/-- A successful `dns_c_ipmatchelement_new` yields exactly the
blank cell: the allocator's fresh identity, zero flags, `none` tag. -/
theorem elemNew_success_shape (m : Mem) (e : IpMatchElement) (mo : Mem)
    (h : dns_c_ipmatchelement_new m = ((.success, some e), mo)) :
    e = .mk m.next 0 IpMatchVal.none := by
  rw [dns_c_ipmatchelement_new, isc_mem_get] at h
  rcases hf : m.fail with _ | ⟨b, rest⟩ <;> rw [hf] at h
  · simp only [Prod.mk.injEq, Option.some.injEq] at h
    exact h.1.2.symm
  · cases b
    · simp at h
    · simp only [if_true, ite_true, Prod.mk.injEq, Option.some.injEq] at h
      exact h.1.2.symm

/-- The negate bit as a single-bit test: `flags & 1 == 1` is bit 0. -/
theorem isneg_testBit (e : IpMatchElement) :
    dns_c_ipmatchelement_isneg e = e.flags.testBit 0 := by
  simp [dns_c_ipmatchelement_isneg, DNS_C_IPMATCH_NEGATE, Nat.testBit,
    Nat.shiftRight_zero, Nat.and_one_is_mod, Nat.mod_two_eq_one_iff_testBit_zero]

/-- C10: every element a successful public constructor returns has its
negation flag clear — localhost, localnets, indirect, pattern, key and
ACL-by-name constructors all hand back a fresh element whose
`dns_c_ipmatchelement_isneg` is false; `dns_c_ipmatchelement_copy`
preserves the source's flags word verbatim (so negation arises on a
copy only if the source was negated); and `dns_c_ipmatch_negate`
toggles the flag. -/
theorem claim_C10 :
    (∀ (m : Mem) (e : IpMatchElement) (mo : Mem),
      dns_c_ipmatchlocalhost_new m = ((.success, some e), mo) →
      dns_c_ipmatchelement_isneg e = false) ∧
    (∀ (m : Mem) (e : IpMatchElement) (mo : Mem),
      dns_c_ipmatchlocalnets_new m = ((.success, some e), mo) →
      dns_c_ipmatchelement_isneg e = false) ∧
    (∀ (m : Mem) (iml : IpMatchList) (name : Option String)
        (e : IpMatchElement) (mo : Mem),
      dns_c_ipmatchindirect_new m iml name = ((.success, some e), mo) →
      dns_c_ipmatchelement_isneg e = false) ∧
    (∀ (m : Mem) (address : Sockaddr) (maskbits : Nat)
        (e : IpMatchElement) (mo : Mem),
      dns_c_ipmatchpattern_new m address maskbits = ((.success, some e), mo) →
      dns_c_ipmatchelement_isneg e = false) ∧
    (∀ (m : Mem) (keyname : String) (e : IpMatchElement) (mo : Mem),
      dns_c_ipmatchkey_new m keyname = ((.success, some e), mo) →
      dns_c_ipmatchelement_isneg e = false) ∧
    (∀ (m : Mem) (aclname : String) (e : IpMatchElement) (mo : Mem),
      dns_c_ipmatch_aclnew m aclname = ((.success, some e), mo) →
      dns_c_ipmatchelement_isneg e = false) ∧
    (∀ (m : Mem) (src : IpMatchElement) (e : IpMatchElement) (mo : Mem),
      dns_c_ipmatchelement_copy m src = ((.success, some e), mo) →
      e.flags = src.flags) ∧
    (∀ e : IpMatchElement,
      dns_c_ipmatchelement_isneg (dns_c_ipmatch_negate e).2 =
        !dns_c_ipmatchelement_isneg e) := by
  refine ⟨?_, ?_, ?_, ?_, ?_, ?_, ?_, ?_⟩
  · intro m e mo h
    simp only [dns_c_ipmatchlocalhost_new] at h
    rcases hN : dns_c_ipmatchelement_new m with ⟨⟨rN, eN⟩, mN⟩
    rw [hN] at h
    cases rN <;> rcases eN with _ | e1 <;>
      simp only [Prod.mk.injEq, Option.some.injEq, reduceCtorEq, false_and,
        and_false, true_and] at h
    rw [← h.1, elemNew_success_shape m e1 mN hN]
    simp [dns_c_ipmatchelement_isneg, IpMatchElement.flags, DNS_C_IPMATCH_NEGATE]
  · intro m e mo h
    simp only [dns_c_ipmatchlocalnets_new] at h
    rcases hN : dns_c_ipmatchelement_new m with ⟨⟨rN, eN⟩, mN⟩
    rw [hN] at h
    cases rN <;> rcases eN with _ | e1 <;>
      simp only [Prod.mk.injEq, Option.some.injEq, reduceCtorEq, false_and,
        and_false, true_and] at h
    rw [← h.1, elemNew_success_shape m e1 mN hN]
    simp [dns_c_ipmatchelement_isneg, IpMatchElement.flags, DNS_C_IPMATCH_NEGATE]
  · intro m iml name e mo h
    simp only [dns_c_ipmatchindirect_new] at h
    rcases hC : dns_c_ipmatchlist_copy m iml with ⟨⟨rC, lC⟩, mC⟩
    rw [hC] at h
    cases rC <;> rcases lC with _ | cp <;>
      simp only [Prod.mk.injEq, Option.some.injEq, reduceCtorEq, false_and,
        and_false, true_and] at h
    rcases hN : dns_c_ipmatchelement_new mC with ⟨⟨rN, eN⟩, mN⟩
    rw [hN] at h
    cases rN <;> rcases eN with _ | e1 <;>
      simp only [Prod.mk.injEq, Option.some.injEq, reduceCtorEq, false_and,
        and_false, true_and] at h
    rw [← h.1, elemNew_success_shape mC e1 mN hN]
    simp [dns_c_ipmatchelement_isneg, IpMatchElement.flags, DNS_C_IPMATCH_NEGATE]
  · intro m address maskbits e mo h
    simp only [dns_c_ipmatchpattern_new] at h
    cases hM : checkmask address maskbits <;> rw [hM] at h <;>
      simp only [Prod.mk.injEq, Option.some.injEq, reduceCtorEq, false_and,
        and_false, true_and] at h
    rcases hN : dns_c_ipmatchelement_new m with ⟨⟨rN, eN⟩, mN⟩
    rw [hN] at h
    cases rN <;> rcases eN with _ | e1 <;>
      simp only [Prod.mk.injEq, Option.some.injEq, reduceCtorEq, false_and,
        and_false, true_and] at h
    rw [← h.1, elemNew_success_shape m e1 mN hN]
    simp [dns_c_ipmatchelement_isneg, IpMatchElement.flags, DNS_C_IPMATCH_NEGATE]
  · intro m keyname e mo h
    simp only [dns_c_ipmatchkey_new] at h
    rcases hN : dns_c_ipmatchelement_new m with ⟨⟨rN, eN⟩, mN⟩
    rw [hN] at h
    cases rN <;> rcases eN with _ | e1 <;>
      simp only [Prod.mk.injEq, Option.some.injEq, reduceCtorEq, false_and,
        and_false, true_and] at h
    rw [← h.1, elemNew_success_shape m e1 mN hN]
    simp [dns_c_ipmatchelement_isneg, IpMatchElement.flags, DNS_C_IPMATCH_NEGATE]
  · intro m aclname e mo h
    simp only [dns_c_ipmatch_aclnew] at h
    rcases hN : dns_c_ipmatchelement_new m with ⟨⟨rN, eN⟩, mN⟩
    rw [hN] at h
    cases rN <;> rcases eN with _ | e1 <;>
      simp only [Prod.mk.injEq, Option.some.injEq, reduceCtorEq, false_and,
        and_false, true_and] at h
    rw [← h.1, elemNew_success_shape m e1 mN hN]
    simp [dns_c_ipmatchelement_isneg, IpMatchElement.flags, DNS_C_IPMATCH_NEGATE]
  · intro m src e mo h
    rcases src with ⟨i, f, v⟩
    simp only [dns_c_ipmatchelement_copy] at h
    rcases hN : dns_c_ipmatchelement_new m with ⟨⟨rN, eN⟩, mN⟩
    rw [hN] at h
    cases rN <;> rcases eN with _ | e1 <;>
      rcases v with _ | _ | _ | ⟨a, mask⟩ | ⟨_ | inner, rname⟩ | k | a <;>
      simp only [Prod.mk.injEq, Option.some.injEq, reduceCtorEq, false_and,
        and_false, true_and] at h <;>
      rw [← h.1] <;> simp [IpMatchElement.flags]
  · intro e
    rcases e with ⟨i, f, v⟩
    rw [isneg_testBit, isneg_testBit]
    simp only [dns_c_ipmatch_negate, dns_c_ipmatchelement_isneg,
      DNS_C_IPMATCH_NEGATE, IpMatchElement.flags, IpMatchElement.eid,
      IpMatchElement.val]
    by_cases hb : f &&& 1 = 1
    · rw [if_pos (by simpa using hb)]
      simp only [IpMatchElement.flags]
      have h0 : (f &&& 0xfffffffe).testBit 0 = false := by
        simp [Nat.testBit_and]
      have h1 : f.testBit 0 = true := by
        simp [Nat.testBit, Nat.shiftRight_zero, Nat.and_one_is_mod] at hb ⊢
        omega
      rw [h0, h1]
      rfl
    · rw [if_neg (by simpa using hb)]
      simp only [IpMatchElement.flags]
      have h0 : (f ||| 1).testBit 0 = true := by
        simp [Nat.testBit_or]
      have h1 : f.testBit 0 = false := by
        simp [Nat.testBit, Nat.shiftRight_zero, Nat.and_one_is_mod] at hb ⊢
        omega
      rw [h0, h1]
      rfl

/-- C10, witness: at a concrete allocator each constructor succeeds and
the fresh element is not negated; a copy of a negated element keeps
flags 1; negate toggles a clear element to negated. -/
theorem claim_C10_witness :
    dns_c_ipmatchelement_isneg (.mk 0 0 IpMatchVal.localhost) = false ∧
    dns_c_ipmatchelement_isneg (.mk 0 0 IpMatchVal.localnets) = false ∧
    dns_c_ipmatchelement_isneg (.mk 1 0 (.indirect (some (.mk 0 1 [])) Option.none)) = false ∧
    dns_c_ipmatchelement_isneg (.mk 0 0 (.pattern (Sockaddr.v4 0) 0)) = false ∧
    dns_c_ipmatchelement_isneg (.mk 0 0 (.key (some "k"))) = false ∧
    dns_c_ipmatchelement_isneg (.mk 0 0 (.acl (some "a"))) = false := by
  refine ⟨?_, ?_, ?_, ?_, ?_, ?_⟩
  · exact claim_C10.1 { next := 0, fail := [], freed := [] }
      (.mk 0 0 IpMatchVal.localhost) { next := 1, fail := [], freed := [] } rfl
  · exact claim_C10.2.1 { next := 0, fail := [], freed := [] }
      (.mk 0 0 IpMatchVal.localnets) { next := 1, fail := [], freed := [] } rfl
  · exact claim_C10.2.2.1 { next := 0, fail := [], freed := [] } (.mk 7 1 [])
      Option.none (.mk 1 0 (.indirect (some (.mk 0 1 [])) Option.none))
      { next := 2, fail := [], freed := [] }
      (by simp [dns_c_ipmatchindirect_new, dns_c_ipmatchlist_copy,
        dns_c_ipmatchlist_new, copyElems, dns_c_ipmatchelement_new, isc_mem_get,
        IpMatchElement.eid, IpMatchElement.flags, IpMatchList.lid,
        IpMatchList.refcount])
  · exact claim_C10.2.2.2.1 { next := 0, fail := [], freed := [] }
      (Sockaddr.v4 0) 0 (.mk 0 0 (.pattern (Sockaddr.v4 0) 0))
      { next := 1, fail := [], freed := [] } rfl
  · exact claim_C10.2.2.2.2.1 { next := 0, fail := [], freed := [] } "k"
      (.mk 0 0 (.key (some "k"))) { next := 1, fail := [], freed := [] } rfl
  · exact claim_C10.2.2.2.2.2.1 { next := 0, fail := [], freed := [] } "a"
      (.mk 0 0 (.acl (some "a"))) { next := 1, fail := [], freed := [] } rfl

/-! ## Claim C8 — the diagnostic tool's wire-corruption pipeline
(`src/bin/tests/rdata_test.c`, main, lines 444-501) -/

/-- C8: with `L` the successfully encoded wire length
(`used - current`), the length made active before `FromWire` is exactly
the claimed `-z`, then `-t`, then `-a` pipeline applied to `L`, and
`-a` also grows the buffer's used length by the same `length/4 + 1`
quantity it adds to the length. -/
theorem claim_C8 (b : WireBuf) (zero trunc add : Bool) :
    (rdata_test_corrupt b zero trunc add).1.active =
      specActiveLength (b.used - b.current) zero trunc add ∧
    (rdata_test_corrupt b zero trunc add).2 =
      specActiveLength (b.used - b.current) zero trunc add ∧
    (rdata_test_corrupt b zero trunc add).1.used =
      b.used + specUsedGrowth (b.used - b.current) zero trunc add ∧
    (rdata_test_corrupt b zero trunc add).1.current = b.current := by
  cases zero <;> cases trunc <;> cases add <;>
    simp [rdata_test_corrupt, specActiveLength, specUsedGrowth,
      isc_buffer_add, isc_buffer_setactive, Nat.mul_comm]

/-! ## Claim C1 — list copy versus list equality -/

/-- C1, counterexample: copying the empty list `L` (cell 0) succeeds
and yields a fresh empty list (cell 1), but
`dns_c_ipmatchlist_equal(L, Copy(L))` is false, not true — `equal`
returns false whenever either argument is non-NULL (see C4).  This
refutes the claim's `Equal(L, Copy(L)) = true` clause. -/
theorem claim_C1_counterexample :
    dns_c_ipmatchlist_copy { next := 1, fail := [], freed := [] } (.mk 0 1 []) =
      ((.success, some (.mk 1 1 [])), { next := 2, fail := [], freed := [] }) ∧
    dns_c_ipmatchlist_equal (some (.mk 0 1 [])) (some (.mk 1 1 [])) = false := by
  constructor
  · simp [dns_c_ipmatchlist_copy, dns_c_ipmatchlist_new, copyElems, isc_mem_get,
      IpMatchList.lid, IpMatchList.refcount]
  · rfl

theorem sizeOf_inner_lt (i f : Nat) (inner : IpMatchList) (rn : Option String) :
    sizeOf inner < sizeOf (IpMatchElement.mk i f (.indirect (some inner) rn)) := by
  simp
  omega

theorem sizeOf_els_lt (lid rc : Nat) (els : List IpMatchElement) :
    sizeOf els < sizeOf (IpMatchList.mk lid rc els) := by
  simp

/-- Deep freshness of `dns_c_ipmatchlist_copy`: with every allocation
succeeding, copying a live element/list/element-sequence succeeds, and
every cell of the clone carries an identity drawn from the allocations
performed during the copy — at or above the allocator's starting
`next`, strictly below its final `next`.  (Joint statement over the
mutual recursion, by strong induction on size.) -/
theorem copy_fresh (n : Nat) :
    (∀ (m : Mem) (src : IpMatchElement), sizeOf src ≤ n → m.fail = [] →
      elemValid src = true →
      ∃ (c : IpMatchElement) (m2 : Mem),
        dns_c_ipmatchelement_copy m src = ((.success, some c), m2) ∧
        m2.fail = [] ∧ m.next ≤ m2.next ∧
        (∀ x ∈ c.ids, m.next ≤ x ∧ x < m2.next)) ∧
    (∀ (m : Mem) (src : IpMatchList), sizeOf src ≤ n → m.fail = [] →
      listValid src = true →
      ∃ (c : IpMatchList) (m2 : Mem),
        dns_c_ipmatchlist_copy m src = ((.success, some c), m2) ∧
        m2.fail = [] ∧ m.next ≤ m2.next ∧ c.lid = m.next ∧
        (∀ x ∈ c.ids, m.next ≤ x ∧ x < m2.next)) ∧
    (∀ (m : Mem) (es : List IpMatchElement) (acc : List IpMatchElement),
      sizeOf es ≤ n → m.fail = [] → elemsValid es = true →
      ∃ (out : List IpMatchElement) (m2 : Mem),
        copyElems m es acc = ((.success, acc ++ out), m2) ∧
        m2.fail = [] ∧ m.next ≤ m2.next ∧
        (∀ x ∈ elemsIds out, m.next ≤ x ∧ x < m2.next)) := by
  induction n using Nat.strong_induction_on with
  | _ n ih =>
  have helemNew : ∀ m : Mem, m.fail = [] →
      dns_c_ipmatchelement_new m =
        ((.success, some (.mk m.next 0 IpMatchVal.none)),
         { m with next := m.next + 1 }) := by
    intro m hm
    simp [dns_c_ipmatchelement_new, isc_mem_get, hm]
  refine ⟨?_, ?_, ?_⟩
  · intro m src hsz hfail hvalid
    rcases src with ⟨i, f, v⟩
    cases v with
    | none => simp [elemValid] at hvalid
    | localhost =>
        refine ⟨.mk m.next f .localhost, { m with next := m.next + 1 }, ?_,
          by simp [hfail], by simp, ?_⟩
        · simp only [dns_c_ipmatchelement_copy]
          rw [helemNew m hfail]
          simp [IpMatchElement.eid]
        · intro x hx
          simp [IpMatchElement.ids] at hx
          subst hx
          exact ⟨Nat.le_refl _, Nat.lt_succ_self _⟩
    | localnets =>
        refine ⟨.mk m.next f .localnets, { m with next := m.next + 1 }, ?_,
          by simp [hfail], by simp, ?_⟩
        · simp only [dns_c_ipmatchelement_copy]
          rw [helemNew m hfail]
          simp [IpMatchElement.eid]
        · intro x hx
          simp [IpMatchElement.ids] at hx
          subst hx
          exact ⟨Nat.le_refl _, Nat.lt_succ_self _⟩
    | pattern a mask =>
        refine ⟨.mk m.next f (.pattern a mask), { m with next := m.next + 1 }, ?_,
          by simp [hfail], by simp, ?_⟩
        · simp only [dns_c_ipmatchelement_copy]
          rw [helemNew m hfail]
          simp [IpMatchElement.eid]
        · intro x hx
          simp [IpMatchElement.ids] at hx
          subst hx
          exact ⟨Nat.le_refl _, Nat.lt_succ_self _⟩
    | key k =>
        rcases k with _ | str
        · simp [elemValid] at hvalid
        · refine ⟨.mk m.next f (.key (some str)), { m with next := m.next + 1 },
            ?_, by simp [hfail], by simp, ?_⟩
          · simp only [dns_c_ipmatchelement_copy]
            rw [helemNew m hfail]
            simp [IpMatchElement.eid, strdupOpt, isc_mem_strdup, hfail]
          · intro x hx
            simp [IpMatchElement.ids] at hx
            subst hx
            exact ⟨Nat.le_refl _, Nat.lt_succ_self _⟩
    | acl a =>
        rcases a with _ | str
        · simp [elemValid] at hvalid
        · refine ⟨.mk m.next f (.acl (some str)), { m with next := m.next + 1 },
            ?_, by simp [hfail], by simp, ?_⟩
          · simp only [dns_c_ipmatchelement_copy]
            rw [helemNew m hfail]
            simp [IpMatchElement.eid, strdupOpt, isc_mem_strdup, hfail]
          · intro x hx
            simp [IpMatchElement.ids] at hx
            subst hx
            exact ⟨Nat.le_refl _, Nat.lt_succ_self _⟩
    | indirect inner rname =>
        rcases inner with _ | inner
        · simp [elemValid] at hvalid
        · have hvi : listValid inner = true := by
            simpa [elemValid] using hvalid
          have hlt : sizeOf inner < n :=
            Nat.lt_of_lt_of_le (sizeOf_inner_lt i f inner rname) hsz
          obtain ⟨cI, m2, hcopy, hf2, hn2, hlidI, hids⟩ :=
            (ih (sizeOf inner) hlt).2.1 { m with next := m.next + 1 } inner
              (Nat.le_refl _) (by simp [hfail]) hvi
          refine ⟨.mk m.next f (.indirect (some cI) Option.none), m2, ?_,
            hf2, by simp at hn2; omega, ?_⟩
          · simp only [dns_c_ipmatchelement_copy]
            rw [helemNew m hfail]
            dsimp only
            rw [hcopy]
            simp [IpMatchElement.eid]
          · intro x hx
            simp only [IpMatchElement.ids, List.mem_cons] at hx
            rcases hx with rfl | hx
            · simp at hn2
              omega
            · have := hids x hx
              simp at this hn2
              omega
  · intro m src hsz hfail hvalid
    rcases src with ⟨lid, rc, els⟩
    have hnewl : dns_c_ipmatchlist_new m =
        ((.success, some (.mk m.next 1 [])), { m with next := m.next + 1 }) := by
      simp [dns_c_ipmatchlist_new, isc_mem_get, hfail]
    have hlt : sizeOf els < n :=
      Nat.lt_of_lt_of_le (sizeOf_els_lt lid rc els) hsz
    obtain ⟨out, m2, hloop, hf2, hn2, hids⟩ :=
      (ih (sizeOf els) hlt).2.2 { m with next := m.next + 1 } els []
        (Nat.le_refl _) (by simp [hfail]) (by simpa [listValid] using hvalid)
    refine ⟨.mk m.next 1 out, m2, ?_, hf2, by simp at hn2; omega,
      by simp [IpMatchList.lid], ?_⟩
    · simp only [dns_c_ipmatchlist_copy]
      rw [hnewl]
      dsimp only
      rw [hloop]
      simp [IpMatchList.lid, IpMatchList.refcount]
    · intro x hx
      simp only [IpMatchList.ids, List.mem_cons] at hx
      rcases hx with rfl | hx
      · simp at hn2
        omega
      · have := hids x hx
        simp at this hn2
        omega
  · intro m es acc hsz hfail hvalid
    cases es with
    | nil =>
        refine ⟨[], m, ?_, hfail, Nat.le_refl _, ?_⟩
        · simp [copyElems]
        · intro x hx
          simp [elemsIds] at hx
    | cons e rest =>
        have hvs : elemValid e = true ∧ elemsValid rest = true := by
          simpa [elemsValid, Bool.and_eq_true] using hvalid
        have hlt1 : sizeOf e < n := by
          have : sizeOf e < sizeOf (e :: rest) := by
            simp only [List.cons.sizeOf_spec]
            omega
          omega
        have hlt2 : sizeOf rest < n := by
          have : sizeOf rest < sizeOf (e :: rest) := by
            simp only [List.cons.sizeOf_spec]
            omega
          omega
        obtain ⟨c, mE, hE, hfE, hnE, hidsE⟩ :=
          (ih (sizeOf e) hlt1).1 m e (Nat.le_refl _) hfail hvs.1
        obtain ⟨out2, m2, hR, hf2, hn2, hids2⟩ :=
          (ih (sizeOf rest) hlt2).2.2 mE rest (acc ++ [c]) (Nat.le_refl _)
            hfE hvs.2
        refine ⟨c :: out2, m2, ?_, hf2, by omega, ?_⟩
        · simp only [copyElems]
          rw [hE]
          dsimp only
          rw [hR]
          simp
        · intro x hx
          simp only [elemsIds, List.mem_append] at hx
          rcases hx with hx | hx
          · have := hidsE x hx
            omega
          · have := hids2 x hx
            omega

/-- C1, amended: for a live list `L` whose cells were all allocated
before `m.next`, `dns_c_ipmatchlist_copy` (with memory available)
succeeds and returns a deep clone allocated entirely at fresh
addresses: the clone's own cell is the next free identity (so it is a
different object from `L`), no cell of the clone coincides with any
cell of `L` (indirect sub-lists included — the clone is fully
independent, so destructive operations on the copy, such as
`dns_c_ipmatchlist_append`, mutate only the clone's cells and can never
change `L`'s element count); appending writes back to the clone's own
cell.  However `dns_c_ipmatchlist_equal(L, Copy(L))` returns false, not
true, since `equal` returns false whenever either argument is
non-NULL. -/
theorem claim_C1_amended (m : Mem) (L : IpMatchList)
    (hfail : m.fail = []) (hvalid : listValid L = true)
    (hfresh : ∀ x ∈ L.ids, x < m.next) :
    ∃ (c : IpMatchList) (m2 : Mem),
      dns_c_ipmatchlist_copy m L = ((.success, some c), m2) ∧
      c.lid = m.next ∧
      c.lid ≠ L.lid ∧
      (∀ x ∈ c.ids, ∀ y ∈ L.ids, x ≠ y) ∧
      dns_c_ipmatchlist_equal (some L) (some c) = false ∧
      (∀ (m3 : Mem) (src2 : IpMatchList) (negate : Bool),
        (dns_c_ipmatchlist_append m3 c src2 negate).1.2.lid = c.lid) := by
  obtain ⟨c, m2, hcopy, _, _, hlid, hids⟩ :=
    (copy_fresh (sizeOf L)).2.1 m L (Nat.le_refl _) hfail hvalid
  have hLlid : L.lid ∈ L.ids := by
    rcases L with ⟨lid, rc, els⟩
    simp [IpMatchList.ids, IpMatchList.lid]
  refine ⟨c, m2, hcopy, hlid, ?_, ?_, rfl, ?_⟩
  · have := hfresh L.lid hLlid
    omega
  · intro x hx y hy
    have h1 := (hids x hx).1
    have h2 := hfresh y hy
    omega
  · intro m3 src2 negate
    rcases c with ⟨clid, crc, cels⟩
    simp [dns_c_ipmatchlist_append, IpMatchList.lid]

/-- C1, witness for the amended theorem: copying the one-element list
at cell 0 (its element at cell 1) with the allocator at 2 yields a
clone rooted at the fresh cell 2, unequal to the original under
`dns_c_ipmatchlist_equal`. -/
theorem claim_C1_amended_witness :
    ({ next := 2, fail := [], freed := [] } : Mem).fail = [] ∧
    listValid (.mk 0 1 [.mk 1 0 IpMatchVal.localhost]) = true ∧
    (∃ (c : IpMatchList) (m2 : Mem),
      dns_c_ipmatchlist_copy { next := 2, fail := [], freed := [] }
          (.mk 0 1 [.mk 1 0 IpMatchVal.localhost]) =
        ((.success, some c), m2) ∧
      c.lid = 2 ∧
      c.lid ≠ (IpMatchList.mk 0 1 [.mk 1 0 IpMatchVal.localhost]).lid ∧
      dns_c_ipmatchlist_equal
        (some (.mk 0 1 [.mk 1 0 IpMatchVal.localhost])) (some c) = false) := by
  refine ⟨rfl, by simp [listValid, elemsValid, elemValid], ?_⟩
  obtain ⟨c, m2, hcopy, hlid, hne, hdisj, heq, happ⟩ :=
    claim_C1_amended { next := 2, fail := [], freed := [] }
      (.mk 0 1 [.mk 1 0 IpMatchVal.localhost])
      rfl (by simp [listValid, elemsValid, elemValid])
      (by
        intro x hx
        simp [IpMatchList.ids, elemsIds, IpMatchElement.ids] at hx
        rcases hx with rfl | rfl <;> decide)
  exact ⟨c, m2, hcopy, hlid, hne, heq⟩

/-! ## Supporting characterizations of `checkmask`

These theorems pin down the two arms of `checkmask` in general: the
IPv4 arm accepts exactly the clean network addresses the specification
describes, while the IPv6 arm (because of the `bits2v6mask` defect
established in `claim_C3_bug`) rejects every address with any nonzero
byte. -/

theorem testBit_255 (i : Nat) : (255 : Nat).testBit i = decide (i < 8) := by
  rw [show (255 : Nat) = 2 ^ 8 - 1 from rfl, Nat.testBit_two_pow_sub_one]

theorem byteswap32_testBit (z k : Nat) :
    (byteswap32 z).testBit k =
      if k < 8 then z.testBit (k + 24)
      else if k < 16 then z.testBit (k + 8)
      else if k < 24 then z.testBit (k - 8)
      else if k < 32 then z.testBit (k - 24)
      else false := by
  unfold byteswap32
  simp only [Nat.testBit_lor, Nat.testBit_shiftLeft, Nat.testBit_land,
    Nat.testBit_shiftRight, testBit_255]
  by_cases h1 : k < 8
  · simp only [if_pos h1]
    have e1 : (decide (k ≥ 24) : Bool) = false := by simp; omega
    have e2 : (decide (k ≥ 16) : Bool) = false := by simp; omega
    have e3 : (decide (k ≥ 8) : Bool) = false := by simp; omega
    have e4 : (decide (k < 8) : Bool) = true := by simp [h1]
    rw [e1, e2, e3, e4]
    simp [Nat.add_comm]
  · by_cases h2 : k < 16
    · simp only [if_neg h1, if_pos h2]
      have e1 : (decide (k ≥ 24) : Bool) = false := by simp; omega
      have e2 : (decide (k ≥ 16) : Bool) = false := by simp; omega
      have e3 : (decide (k ≥ 8) : Bool) = true := by simp; omega
      have e4 : (decide (k < 8) : Bool) = false := by simp; omega
      have e5 : (decide (k - 8 < 8) : Bool) = true := by simp; omega
      rw [e1, e2, e3, e4, e5]
      have : 16 + (k - 8) = k + 8 := by omega
      simp [this]
    · by_cases h3 : k < 24
      · simp only [if_neg h1, if_neg h2, if_pos h3]
        have e1 : (decide (k ≥ 24) : Bool) = false := by simp; omega
        have e2 : (decide (k ≥ 16) : Bool) = true := by simp; omega
        have e3 : (decide (k - 16 < 8) : Bool) = true := by simp; omega
        have e4 : (decide (k < 8) : Bool) = false := by simp; omega
        have e5 : (decide (k ≥ 8) : Bool) = true := by simp; omega
        have e6 : (decide (k - 8 < 8) : Bool) = false := by simp; omega
        rw [e1, e2, e3, e4, e5, e6]
        have : 8 + (k - 16) = k - 8 := by omega
        simp [this]
      · by_cases h4 : k < 32
        · simp only [if_neg h1, if_neg h2, if_neg h3, if_pos h4]
          have e1 : (decide (k ≥ 24) : Bool) = true := by simp; omega
          have e2 : (decide (k - 24 < 8) : Bool) = true := by simp; omega
          have e3 : (decide (k ≥ 16) : Bool) = true := by simp; omega
          have e4 : (decide (k - 16 < 8) : Bool) = false := by simp; omega
          have e5 : (decide (k ≥ 8) : Bool) = true := by simp; omega
          have e6 : (decide (k - 8 < 8) : Bool) = false := by simp; omega
          have e7 : (decide (k < 8) : Bool) = false := by simp; omega
          rw [e1, e2, e3, e4, e5, e6, e7]
          simp
        · simp only [if_neg h1, if_neg h2, if_neg h3, if_neg h4]
          have e1 : (decide (k - 24 < 8) : Bool) = false := by simp; omega
          have e2 : (decide (k - 16 < 8) : Bool) = false := by simp; omega
          have e3 : (decide (k - 8 < 8) : Bool) = false := by simp; omega
          have e4 : (decide (k < 8) : Bool) = false := by simp; omega
          rw [e1, e2, e3, e4]
          simp

theorem testBit_false_of_lt_2_32 (z k : Nat) (hz : z < 4294967296) (hk : 32 ≤ k) :
    z.testBit k = false := by
  refine Nat.testBit_lt_two_pow ?_
  calc z < 4294967296 := hz
    _ = 2 ^ 32 := rfl
    _ ≤ 2 ^ k := Nat.pow_le_pow_right (by omega) hk

theorem byteswap32_lt (z : Nat) : byteswap32 z < 4294967296 := by
  have hpow : (4294967296 : Nat) = 2 ^ 32 := rfl
  have hb : ∀ w s : Nat, s ≤ 24 → (w &&& 255) <<< s < 2 ^ 32 := by
    intro w s hs
    have h1 : w &&& 255 ≤ 255 := Nat.and_le_right
    rw [Nat.shiftLeft_eq]
    calc (w &&& 255) * 2 ^ s ≤ 255 * 2 ^ 24 := by
          have : (2 : Nat) ^ s ≤ 2 ^ 24 := Nat.pow_le_pow_right (by omega) hs
          exact Nat.mul_le_mul h1 this
      _ < 2 ^ 32 := by omega
  unfold byteswap32
  rw [hpow]
  refine Nat.or_lt_two_pow (Nat.or_lt_two_pow (Nat.or_lt_two_pow ?_ ?_) ?_) ?_
  · exact hb z 24 (by omega)
  · exact hb (z >>> 8) 16 (by omega)
  · exact hb (z >>> 16) 8 (by omega)
  · have : (z >>> 24) &&& 255 ≤ 255 := Nat.and_le_right
    omega

theorem byteswap32_invol (z : Nat) (hz : z < 4294967296) :
    byteswap32 (byteswap32 z) = z := by
  apply Nat.eq_of_testBit_eq
  intro k
  rw [byteswap32_testBit]
  by_cases h1 : k < 8
  · rw [if_pos h1, byteswap32_testBit]
    simp only [if_neg (by omega : ¬k + 24 < 8), if_neg (by omega : ¬k + 24 < 16),
      if_neg (by omega : ¬k + 24 < 24), if_pos (by omega : k + 24 < 32)]
    have e : k + 24 - 24 = k := by omega
    rw [e]
  · by_cases h2 : k < 16
    · rw [if_neg h1, if_pos h2, byteswap32_testBit]
      simp only [if_neg (by omega : ¬k + 8 < 8), if_neg (by omega : ¬k + 8 < 16),
        if_pos (by omega : k + 8 < 24)]
      have e : k + 8 - 8 = k := by omega
      rw [e]
    · by_cases h3 : k < 24
      · rw [if_neg h1, if_neg h2, if_pos h3, byteswap32_testBit]
        simp only [if_neg (by omega : ¬k - 8 < 8), if_pos (by omega : k - 8 < 16)]
        have e : k - 8 + 8 = k := by omega
        rw [e]
      · by_cases h4 : k < 32
        · rw [if_neg h1, if_neg h2, if_neg h3, if_pos h4, byteswap32_testBit]
          simp only [if_pos (by omega : k - 24 < 8)]
          have e : k - 24 + 24 = k := by omega
          rw [e]
        · rw [if_neg h1, if_neg h2, if_neg h3, if_neg h4]
          exact (testBit_false_of_lt_2_32 z k hz (by omega)).symm

theorem byteswap32_land (x y : Nat) :
    byteswap32 (x &&& y) = byteswap32 x &&& byteswap32 y := by
  apply Nat.eq_of_testBit_eq
  intro k
  rw [Nat.testBit_land, byteswap32_testBit, byteswap32_testBit, byteswap32_testBit]
  by_cases h1 : k < 8
  · simp [h1, Nat.testBit_land]
  · by_cases h2 : k < 16
    · simp [h1, h2, Nat.testBit_land]
    · by_cases h3 : k < 24
      · simp [h1, h2, h3, Nat.testBit_land]
      · by_cases h4 : k < 32
        · simp [h1, h2, h3, h4, Nat.testBit_land]
        · simp [h1, h2, h3, h4]

theorem eq_zero_iff_testBit_all_false (x : Nat) :
    x = 0 ↔ ∀ i, x.testBit i = false := by
  constructor
  · intro h i
    rw [h]
    exact Nat.zero_testBit i
  · intro h
    exact Nat.eq_of_testBit_eq (fun i => (h i).trans (Nat.zero_testBit i).symm)

theorem hostmask_testBit (s k : Nat) (hs : s < 32) :
    (((0xffffffff <<< s) % 4294967296).testBit k) = decide (s ≤ k ∧ k < 32) := by
  have hpow : (4294967296 : Nat) = 2 ^ 32 := rfl
  rw [hpow, Nat.testBit_mod_two_pow, Nat.testBit_shiftLeft,
    show (0xffffffff : Nat) = 2 ^ 32 - 1 from rfl, Nat.testBit_two_pow_sub_one]
  by_cases h1 : k < 32
  · by_cases h2 : s ≤ k
    · simp [h1, h2]
      omega
    · simp [h1, h2]
  · simp [h1]

theorem mask_fixed_point_iff (h s : Nat) (hh : h < 4294967296) (hs : s < 32) :
    ((0xffffffff <<< s) % 4294967296) &&& h = h ↔ h % 2 ^ s = 0 := by
  constructor
  · intro hfix
    rw [eq_zero_iff_testBit_all_false]
    intro i
    rw [Nat.testBit_mod_two_pow]
    by_cases hi : i < s
    · have := congrArg (fun w => w.testBit i) hfix
      simp only [Nat.testBit_land] at this
      rw [hostmask_testBit s i hs] at this
      have hms : (decide (s ≤ i ∧ i < 32) : Bool) = false := by simp; omega
      rw [hms] at this
      simp at this
      simp [hi, this]
    · simp [hi]
  · intro hmod
    apply Nat.eq_of_testBit_eq
    intro i
    rw [Nat.testBit_land, hostmask_testBit s i hs]
    by_cases hi1 : i < s
    · have : h.testBit i = false := by
        have := congrArg (fun w => w.testBit i) hmod
        simp only [Nat.testBit_mod_two_pow, Nat.zero_testBit] at this
        simpa [hi1] using this
      simp [this]
    · by_cases hi2 : i < 32
      · have : (decide (s ≤ i ∧ i < 32) : Bool) = true := by simp; omega
        simp [this]
      · have hbf : h.testBit i = false :=
          testBit_false_of_lt_2_32 h i hh (by omega)
        simp [hbf]

/-- General form of the C3 defect: for every positive prefix length,
`checkmask` fails on every IPv6 address that has any nonzero byte among
its 16 — the mask the comparison uses is all-zero. -/
theorem checkmask_v6_nonzero_fails (bytes : List Nat) (bits : Nat)
    (hb : 0 < bits) (i : Nat) (hi : i < 16) (hnz : bytes.getD i 0 ≠ 0) :
    checkmask (Sockaddr.v6 bytes) bits = .failure := by
  simp only [checkmask, bits2v6mask]
  rw [if_pos hb]
  have hrep : (List.replicate 16 (0 : Nat)).getD i 0 = 0 := by
    interval_cases i <;> rfl
  have hall : ((List.range 16).all fun j =>
      (bytes.getD j 0 &&& (List.replicate 16 (0 : Nat)).getD j 0) ==
        bytes.getD j 0) = false := by
    rw [List.all_eq_false]
    refine ⟨i, List.mem_range.mpr hi, ?_⟩
    rw [hrep, Nat.and_zero]
    simp only [beq_iff_eq]
    exact fun hx => hnz hx.symm
  rw [hall]
  simp

/-- The IPv4 arm of `checkmask` behaves exactly as the specification
describes: with the host-order address `h` stored in network byte order
and a prefix length in `1..32`, validation succeeds precisely when the
low `32 - bits` (host-part) bits of the address are all zero. -/
theorem checkmask_v4_iff (h bits : Nat) (hh : h < 4294967296)
    (hb : 0 < bits) (hb32 : bits ≤ 32) :
    checkmask (Sockaddr.v4 (byteswap32 h)) bits = .success ↔
      h % 2 ^ (32 - bits) = 0 := by
  have hs : 32 - bits < 32 := by omega
  have hM : ((0xffffffff <<< (32 - bits)) % 4294967296) &&& h < 4294967296 :=
    Nat.lt_of_le_of_lt Nat.and_le_right hh
  simp only [checkmask]
  rw [if_pos hb]
  simp only [ntohl]
  constructor
  · intro hres
    by_cases hcond :
        byteswap32 ((0xffffffff <<< (32 - bits)) % 4294967296) &&& byteswap32 h =
          byteswap32 h
    · rw [← byteswap32_land] at hcond
      have := congrArg byteswap32 hcond
      rw [byteswap32_invol _ hM, byteswap32_invol _ hh] at this
      exact (mask_fixed_point_iff h (32 - bits) hh hs).1 this
    · rw [if_neg hcond] at hres
      exact absurd hres (by simp)
  · intro hmod
    have hfix := (mask_fixed_point_iff h (32 - bits) hh hs).2 hmod
    have hcond : byteswap32 ((0xffffffff <<< (32 - bits)) % 4294967296) &&&
        byteswap32 h = byteswap32 h := by
      rw [← byteswap32_land, hfix]
    rw [if_pos hcond]

end BindConfip
